import Mathlib

/-!
# Verification of the shalom-orders tenant/shipment manager

Shallow embedding of the security-code validators, the tenant-session
lifecycle manager, the login state machine, the shipment workflow result
extraction, and the massive-registration scrape, translated from
`src/index.js`, `src/tenantManager.js` (the revision that includes
`getOrRestoreInstance` and `registerMassiveShipment`), the massive
`/register` route, and `prisma/migrations/20260127173443_init/migration.sql`.
-/

namespace Shalom

/-! ## JS string primitives -/

/-- Substring test on character lists: `needle` occurs contiguously in
`hay`. -/
def isSubstring (needle hay : List Char) : Bool :=
  needle.isPrefixOf hay ||
    match hay with
    | [] => false
    | _ :: t => isSubstring needle t

/-- JS `hay.includes(needle)`: substring test. -/
def jsIncludes (hay needle : String) : Bool :=
  isSubstring needle.toList hay.toList

/-- Numeric value of a digit character, as produced by JS `parseInt` on a
single digit; integer-valued so that `d - 1` can go below zero. -/
def digitVal (c : Char) : Int :=
  (c.toNat : Int) - ('0'.toNat : Int)

/-- JS `/^\d{4}$/.test(code)`: exactly four decimal digits. -/
def isFourDigits (s : String) : Bool :=
  s.toList.length == 4 && s.toList.all Char.isDigit

/-! ## Security-code validators

Two distinct validators exist in the HTTP layer:
* the single-shipment route `POST /shipments` checks `/^\d{4}$/` and an
  explicit consecutive-digit computation on the four digits;
* the massive route `POST /register` only compares the code against the
  literal strings `"0123456789"` / `"9876543210"` and only when its length
  is exactly 4.
-/

/-- The `isConsecutive` computation of `POST /shipments`:
`parseInt(code[1]) === parseInt(code[0]) + 1 && ...` ascending, or the
descending mirror.  In the route it is only evaluated after the
`/^\d{4}$/` test, so the four-character pattern is the live case. -/
def isConsecutive (code : String) : Bool :=
  match code.toList with
  | [a, b, c, d] =>
    (digitVal b == digitVal a + 1 && digitVal c == digitVal b + 1
      && digitVal d == digitVal c + 1)
    || (digitVal b == digitVal a - 1 && digitVal c == digitVal b - 1
      && digitVal d == digitVal c - 1)
  | _ => false

/-- Outcome of the `POST /shipments` securityCode validation. -/
inductive CodeCheck where
  | ok
  | notFourDigits
  | consecutive
deriving DecidableEq, Repr

/-- Validation of `POST /shipments`: reject when not
`/^\d{4}$/`, then reject when `isConsecutive`, else pass. -/
def validateShipmentsCode (code : String) : CodeCheck :=
  if !isFourDigits code then .notFourDigits
  else if isConsecutive code then .consecutive
  else .ok

/-- The ascending reference string of the `POST /register` validator. -/
def ascendingDigits : String := "0123456789"

/-- The descending reference string of the `POST /register` validator. -/
def descendingDigits : String := "9876543210"

/-- Validation of `POST /register`: the request is rejected iff
`pin.length === 4 && (ascending.includes(pin) || descending.includes(pin))`. -/
def massiveCodeRejected (pin : String) : Bool :=
  pin.toList.length == 4
    && (jsIncludes ascendingDigits pin || jsIncludes descendingDigits pin)

/-- Modelled from the spec: a run of 4 consecutive ascending (resp.
descending) digits is four characters whose digit values increase (resp.
decrease) by one at each step. -/
def isRunOfFour (code : String) : Bool :=
  match code.toList with
  | [a, b, c, d] =>
    (digitVal b == digitVal a + 1 && digitVal c == digitVal b + 1
      && digitVal d == digitVal c + 1)
    || (digitVal a == digitVal b + 1 && digitVal b == digitVal c + 1
      && digitVal c == digitVal d + 1)
  | _ => false

/-- Modelled from the spec: "must be exactly 4 digits; must not be a run
of 4 consecutive ascending or descending digits". -/
def specCodeAccepted (code : String) : Bool :=
  (code.toList.length == 4 && code.toList.all Char.isDigit)
    && !isRunOfFour code

/-! ## Result extraction (`_getRegistrationResult`)

The page content is scanned with `content.includes('Registrado')`,
`content.match(/([A-Z]\d+)\s*-\s*(\d+)/)` and
`content.match(/S\/\s*([\d.]+)/)`.  The two regular expressions are
deterministic here (no observable backtracking: after a greedy `\d+` the
forced next character is never a digit), so they are embedded as greedy
left-to-right scanners returning the leftmost match's capture groups. -/

/-- ASCII whitespace as matched by the regex class `\s` on this content. -/
def isJsSpace (c : Char) : Bool :=
  c == ' ' || c == '\t' || c == '\n' || c == '\r' || c == '\x0b' || c == '\x0c'

/-- Greedily split off a maximal run of characters satisfying `p`. -/
def takeRun (p : Char → Bool) : List Char → List Char × List Char
  | [] => ([], [])
  | c :: t =>
    if p c then
      let (r, rest) := takeRun p t
      (c :: r, rest)
    else ([], c :: t)

/-- Attempt `([A-Z]\d+)\s*-\s*(\d+)` at the head of the list; on success
return the two capture groups. -/
def regMatchAt (l : List Char) : Option (String × String) :=
  match l with
  | [] => none
  | c :: rest =>
    if c.isUpper then
      match takeRun Char.isDigit rest with
      | ([], _) => none
      | (ds, rest2) =>
        match takeRun isJsSpace rest2 with
        | (_, rest3) =>
          match rest3 with
          | '-' :: rest4 =>
            match takeRun isJsSpace rest4 with
            | (_, rest5) =>
              match takeRun Char.isDigit rest5 with
              | ([], _) => none
              | (ds2, _) => some (String.mk (c :: ds), String.mk ds2)
          | _ => none
    else none

/-- Leftmost match of `([A-Z]\d+)\s*-\s*(\d+)`. -/
def findRegMatch : List Char → Option (String × String)
  | [] => none
  | c :: rest =>
    match regMatchAt (c :: rest) with
    | some r => some r
    | none => findRegMatch rest

/-- Attempt `S\/\s*([\d.]+)` at the head of the list; on success return
the capture group. -/
def priceMatchAt (l : List Char) : Option String :=
  match l with
  | 'S' :: '/' :: rest =>
    match takeRun isJsSpace rest with
    | (_, rest2) =>
      match takeRun (fun c => c.isDigit || c == '.') rest2 with
      | ([], _) => none
      | (ds, _) => some (String.mk ds)
  | _ => none

/-- Leftmost match of `S\/\s*([\d.]+)`. -/
def findPriceMatch : List Char → Option String
  | [] => none
  | c :: rest =>
    match priceMatchAt (c :: rest) with
    | some r => some r
    | none => findPriceMatch rest

/-- The `ShipmentResult` shape returned by `_getRegistrationResult` and
`registerShipment`.  The code applies JS `parseFloat` to the price
capture; the capture string itself is kept here. -/
structure RegResult where
  success : Bool
  registrationNumber : Option String
  price : Option String
  message : String
deriving DecidableEq, Repr

/-- Embedding of `_getRegistrationResult(page)`: `content` is the page content and
`swalTitle` the text of the `.swal2-title` locator (`none` when that
extraction itself fails, in which case the catch handler substitutes
`'Unknown error'`). -/
def getRegistrationResult (content : String) (swalTitle : Option String) :
    RegResult :=
  if jsIncludes content "Registrado" then
    { success := true
      registrationNumber :=
        (findRegMatch content.toList).map (fun p => p.1 ++ " - " ++ p.2)
      price := findPriceMatch content.toList
      message := "Shipment registered successfully" }
  else
    { success := false
      registrationNumber := none
      price := none
      message := swalTitle.getD "Unknown error" }

/-! ## Tenant manager state model

State of the `TenantManager` singleton: the in-memory `instances` map
(`Map<apiKey, {id, context, page, username, ...}>`) and the durable
`instances` table.  Driver interactions and database writes are recorded
in an `Action` trace; driver results (page URLs, page content, login
attempt outcomes, storage blobs) are supplied as environment inputs. -/

/-- Observable driver / database interactions. -/
inductive Action where
  | navigate (url : String)
  | reloadPage
  | fillCredentials
  | submitForm
  | clickDigit (c : Char)
  | uploadFile (path : String)
  | saveState
  | closeContext
  | clearCookies
  | dbCreate (fields : List String)
  | dbWrite (fields : List String)
  | dbDelete
deriving DecidableEq, Repr

/-- A live session entry of the in-memory `instances` map. -/
structure LiveInstance where
  id : String
  username : Option String
  pageUrl : String
deriving DecidableEq, Repr

/-- A row of the durable `instances` table.  The remaining columns of the
migration (`isActive`, `createdAt`, `lastUsedAt`) carry no data any claim
depends on; they are listed in `instancesColumns` and appear in the
field lists of the recorded writes. -/
structure DbRecord where
  id : String
  apiKey : String
  username : Option String
  storageState : Option String
deriving DecidableEq, Repr

/-- Columns of the `instances` table, from
`prisma/migrations/20260127173443_init/migration.sql`. -/
def instancesColumns : List String :=
  ["id", "apiKey", "username", "storageState", "isActive",
   "createdAt", "lastUsedAt"]

/-- The `instances` table has no password column, so the
`dbInstance.password` read in `_restoreInstance` always yields
`undefined`. -/
def dbRecordPassword (_ : DbRecord) : Option String := none

structure TMState where
  instances : List (String × LiveInstance)
  db : List DbRecord
deriving DecidableEq, Repr

/-- Lookup `this.instances.get(apiKey)`. -/
def getInstance (s : TMState) (k : String) : Option LiveInstance :=
  (s.instances.find? (fun p => p.1 == k)).map Prod.snd

/-- Query `db.instance.findFirst({ where: { apiKey } })`. -/
def dbFind (s : TMState) (k : String) : Option DbRecord :=
  s.db.find? (fun r => r.apiKey == k)

/-- Update `this.instances.set(apiKey, inst)`. -/
def setInstance (s : TMState) (k : String) (inst : LiveInstance) : TMState :=
  { s with instances := (k, inst) :: s.instances.filter (fun p => p.1 != k) }

/-- Write `db.instance.update({ where: { apiKey }, data })`, as a partial update
of the record with that key. -/
def dbUpdate (s : TMState) (k : String) (f : DbRecord → DbRecord) : TMState :=
  { s with db := s.db.map (fun r => if r.apiKey == k then f r else r) }

/-- Embedding of `_saveStorageState(apiKey)`: no-op when the key is not live, otherwise
extracts the context's storage state and updates
`{ storageState, lastUsedAt }`. -/
def saveStorageState (s : TMState) (k : String) (blob : String) :
    TMState × List Action :=
  match getInstance s k with
  | none => (s, [])
  | some _ =>
    (dbUpdate s k (fun r => { r with storageState := some blob }),
     [Action.saveState, Action.dbWrite ["storageState", "lastUsedAt"]])

/-! ## Login state machine (`_attemptLogin`) -/

/-- Outcome of one login attempt, as observed by the code: after filling
and submitting the form, either the URL no longer contains `login`, or
the page content contains the `incorrectas`/`error` indicator, or neither
(the loop just proceeds to the next attempt), or the driver threw. -/
inductive AttemptOutcome where
  | navigatedAway (url : String)
  | invalidIndicator
  | noIndicator
  | driverError (msg : String)

/-- The `{success, message?, url?}` shape returned by the login paths. -/
structure LoginResult where
  success : Bool
  message : Option String
  url : Option String
deriving DecidableEq, Repr

/-- Driver actions of one loop iteration: reload on retries, then fill
both credential fields and submit. -/
def attemptTrace (attempt : Nat) : List Action :=
  (if 1 < attempt then [Action.reloadPage] else [])
    ++ [Action.fillCredentials, Action.submitForm]

/-- The `for (attempt = 1; attempt <= retries; ...)` loop of
`_attemptLogin`; `fuel` counts the remaining iterations
(`retries + 1 - attempt`).  Returns the number of attempts made, the
result, and the driver trace. -/
def loginLoopGo (env : Nat → AttemptOutcome) (retries : Nat) :
    Nat → Nat → Nat × LoginResult × List Action
  | 0, attempt => (attempt - 1, ⟨false, some "Login failed", none⟩, [])
  | fuel + 1, attempt =>
    match env attempt with
    | .navigatedAway url =>
      (attempt, ⟨true, none, some url⟩, attemptTrace attempt)
    | .invalidIndicator =>
      if attempt < retries then
        let (n, r, tr) := loginLoopGo env retries fuel (attempt + 1)
        (n, r, attemptTrace attempt ++ tr)
      else
        (attempt, ⟨false, some "Invalid credentials", none⟩, attemptTrace attempt)
    | .noIndicator =>
      let (n, r, tr) := loginLoopGo env retries fuel (attempt + 1)
      (n, r, attemptTrace attempt ++ tr)
    | .driverError msg =>
      if attempt == retries then
        (attempt, ⟨false, some msg, none⟩, attemptTrace attempt)
      else
        let (n, r, tr) := loginLoopGo env retries fuel (attempt + 1)
        (n, r, attemptTrace attempt ++ tr)

/-- Embedding of `_attemptLogin(page, username, password, instanceId, retries)`,
abstracted over the per-attempt outcomes supplied by the site. -/
def attemptLogin (env : Nat → AttemptOutcome) (retries : Nat) :
    Nat × LoginResult × List Action :=
  loginLoopGo env retries retries 1

/-! ## Lifecycle operations -/

/-- Driver inputs consumed while restoring a session: the URL the page
lands on after `goto('https://pro.shalom.pe')`, the outcomes of the
(dead) auto-login attempts, and the storage blob extracted if the state
is saved. -/
structure RestoreEnv where
  urlAfterGoto : String
  autoLogin : Nat → AttemptOutcome
  stateBlob : String

/-- Embedding of `_restoreInstance(dbInstance)`: open a context seeded with the cached
state, navigate to the site root, inspect the URL; the auto-login branch
requires `dbInstance.username && dbInstance.password` and the table has
no password column, so it never runs.  Registers the live session,
touches `lastUsedAt`, and saves the storage state when logged in. -/
def restoreInstance (s : TMState) (r : DbRecord) (env : RestoreEnv) :
    TMState × List Action :=
  let isLoggedIn0 := !jsIncludes env.urlAfterGoto "login"
  let (isLoggedIn, trAuto) :=
    if !isLoggedIn0 && r.username.isSome && (dbRecordPassword r).isSome then
      let (_, res, tr) := attemptLogin env.autoLogin 3
      (res.success, tr)
    else (isLoggedIn0, ([] : List Action))
  let inst : LiveInstance :=
    ⟨r.id, if isLoggedIn then r.username else none, env.urlAfterGoto⟩
  let s1 := setInstance s r.apiKey inst
  let (s2, trSave) :=
    if isLoggedIn then saveStorageState s1 r.apiKey env.stateBlob
    else (s1, [])
  (s2,
   [Action.navigate "https://pro.shalom.pe"] ++ trAuto
     ++ [Action.dbWrite ["lastUsedAt"]] ++ trSave)

/-- Embedding of `getOrRestoreInstance(apiKey)`: live map first, then the durable
record; absent from both yields `null`. -/
def getOrRestoreInstance (s : TMState) (k : String) (env : RestoreEnv) :
    TMState × Option LiveInstance × List Action :=
  match getInstance s k with
  | some inst => (s, some inst, [])
  | none =>
    match dbFind s k with
    | none => (s, none, [])
    | some r =>
      let (s1, tr) := restoreInstance s r env
      (s1, getInstance s1 k, tr)

/-- Embedding of `createInstance()`: persist `{id, apiKey}`, open a context on the
login page, register the live session, return the pair.  The fresh UUIDs
are inputs. -/
def createInstance (s : TMState) (apiKey id : String) :
    TMState × (String × String) × List Action :=
  let s1 := { s with db := s.db ++ [⟨id, apiKey, none, none⟩] }
  let s2 := setInstance s1 apiKey ⟨id, none, "https://pro.shalom.pe/login"⟩
  (s2, (apiKey, id),
   [Action.dbCreate ["id", "apiKey"],
    Action.navigate "https://pro.shalom.pe/login"])

/-- The `{isLoggedIn, username, url}` status shape. -/
structure Status where
  isLoggedIn : Bool
  username : Option String
  url : String
deriving DecidableEq, Repr

/-- Embedding of `getStatus(apiKey)`: `null` when the key is not live. -/
def getStatus (s : TMState) (k : String) : Option Status :=
  match getInstance s k with
  | none => none
  | some inst =>
    let isLoggedIn := !jsIncludes inst.pageUrl "login" && inst.username.isSome
    some ⟨isLoggedIn, if isLoggedIn then inst.username else none, inst.pageUrl⟩

/-- Environment of a `login` call. -/
structure LoginEnv where
  restore : RestoreEnv
  attempts : Nat → AttemptOutcome
  stateBlob : String

/-- Embedding of `login(apiKey, username, password, retries)`.  Throws
`Instance not found` when the key resolves to no session.  When the page
is not on the login view: bind `username` when unbound (with a
`{username}` db write), save storage state, and return
`Already logged in` — without touching the form.  Otherwise run
`_attemptLogin` and on success bind `username`, persist, and return
`Login successful`. -/
def login (s : TMState) (k username : String) (_password : String)
    (retries : Nat) (env : LoginEnv) :
    Except String (TMState × LoginResult × List Action) :=
  match getOrRestoreInstance s k env.restore with
  | (_, none, _) => .error "Instance not found"
  | (s1, some inst, tr0) =>
    if !jsIncludes inst.pageUrl "login" then
      let (s2, tr1) :=
        match inst.username with
        | none =>
          (dbUpdate (setInstance s1 k { inst with username := some username })
             k (fun r => { r with username := some username }),
           [Action.dbWrite ["username"]])
        | some _ => (s1, ([] : List Action))
      let (s3, tr2) := saveStorageState s2 k env.stateBlob
      .ok (s3, ⟨true, some "Already logged in", some inst.pageUrl⟩,
           tr0 ++ tr1 ++ tr2)
    else
      let (_, res, trL) := attemptLogin env.attempts retries
      if res.success then
        let s2 := setInstance s1 k
          { inst with username := some username,
                      pageUrl := res.url.getD inst.pageUrl }
        let s3 := dbUpdate s2 k (fun r => { r with username := some username })
        let (s4, tr2) := saveStorageState s3 k env.stateBlob
        .ok (s4, ⟨true, some "Login successful", res.url⟩,
             tr0 ++ trL ++ [Action.dbWrite ["username"]] ++ tr2)
      else
        .ok (s1, res, tr0 ++ trL)

/-- Embedding of `logout(apiKey)`: clears cookies/storage, unbinds `username`, nulls
the durable `{username, storageState}`, navigates back to the login
view. -/
def logout (s : TMState) (k : String) :
    Except String (TMState × LoginResult × List Action) :=
  match getInstance s k with
  | none => .error "Instance not found"
  | some inst =>
    let s1 := setInstance s k
      { inst with username := none, pageUrl := "https://pro.shalom.pe/login" }
    let s2 := dbUpdate s1 k
      (fun r => { r with username := none, storageState := none })
    .ok (s2, ⟨true, some "Logged out", none⟩,
         [Action.clearCookies, Action.dbWrite ["username", "storageState"],
          Action.navigate "https://pro.shalom.pe/login"])

/-- Embedding of `closeInstance(apiKey)`: close the context and drop the live entry
when present, then `db.instance.delete({ where: { apiKey } })`; the
delete throws `P2025` when the record is absent, which the catch handler
turns into `false`. -/
def closeInstance (s : TMState) (k : String) : TMState × Bool × List Action :=
  let (s1, tr1) :=
    match getInstance s k with
    | some _ =>
      ({ s with instances := s.instances.filter (fun p => p.1 != k) },
       [Action.closeContext])
    | none => (s, ([] : List Action))
  match dbFind s1 k with
  | some _ =>
    ({ s1 with db := s1.db.filter (fun r => r.apiKey != k) }, true,
     tr1 ++ [Action.dbDelete])
  | none => (s1, false, tr1)

/-- Embedding of `shutdown()`: for every live session, save its storage state and
close its context. -/
def shutdown (s : TMState) (blob : String) : TMState × List Action :=
  s.instances.foldl
    (fun (acc : TMState × List Action) p =>
      let (s1, tr) := saveStorageState acc.1 p.1 blob
      (s1, acc.2 ++ tr ++ [Action.closeContext]))
    (s, [])

/-! ## Shipment workflow -/

/-- Input to `registerShipment` (route body, fields the manager reads). -/
structure ShipmentRequest where
  productType : String
  origin : String
  destination : String
  documentNumber : String
  recipientName : Option String
  recipientPhone : Option String
  warranty : Bool
  secureBilling : Bool
  contentType : Option String
  securityCode : Option String
deriving DecidableEq, Repr

/-- Security-code choice `const code = shipmentData.securityCode || '5858'`: JS `||` takes the
default on any falsy value, so both an absent field and the empty string
yield `"5858"`. -/
def singleWorkflowCode (sc : Option String) : String :=
  match sc with
  | none => "5858"
  | some s => if s == "" then "5858" else s

/-- What the site did with the submitted form: the workflow either ran to
the result-extraction step with some final page content (and, on the
failure path, a dialog title), or some step threw. -/
inductive WorkflowOutcome where
  | completed (content : String) (swalTitle : Option String)
  | stepError (msg : String)

/-- Environment of a `registerShipment` call. -/
structure ShipEnv where
  restore : RestoreEnv
  outcome : WorkflowOutcome
  stateBlob : String

/-- Result of `registerShipment`: the extracted `ShipmentResult`, or, when
a step threw, the `{success:false, error, details:'Registration failed'}`
shape of the catch handler. -/
inductive RegisterOutcome where
  | extracted (r : RegResult)
  | errorCaught (msg : String)
deriving DecidableEq, Repr

/-- Embedding of `registerShipment(apiKey, shipmentData)`: resolve the session (throw
`Instance not found` otherwise), drive the step sequence, enter the
security code one digit-button click at a time, extract the result, save
the storage state.  When a step throws, the catch handler returns a
failure shape and nothing is persisted.  (The step actions between the
two navigations and the digit entry are driven by the outcome input; on
the error path the partially executed step actions are not itemized.) -/
def registerShipment (s : TMState) (k : String) (data : ShipmentRequest)
    (env : ShipEnv) :
    Except String (TMState × RegisterOutcome × List Action) :=
  match getOrRestoreInstance s k env.restore with
  | (_, none, _) => .error "Instance not found"
  | (s1, some _, tr0) =>
    let navs := [Action.navigate "https://pro.shalom.pe/#/home",
                 Action.navigate "https://pro.shalom.pe/#/envios"]
    match env.outcome with
    | .stepError msg => .ok (s1, .errorCaught msg, tr0 ++ navs)
    | .completed content swalTitle =>
      let code := singleWorkflowCode data.securityCode
      let result := getRegistrationResult content swalTitle
      let (s2, trSave) := saveStorageState s1 k env.stateBlob
      .ok (s2, .extracted result,
           tr0 ++ navs ++ code.toList.map Action.clickDigit ++ trSave)

/-! ## Massive registration -/

/-- One candidate produced by scanning the pending-shipments view: a leaf
element containing `N° de Orden`, resolved (within 6 parent hops) to a
container whose text also holds `Código` and `S/`.  `hasContainer` is
false when no such container exists; the three captures are the row's
regex matches and `isDeleted` records the `.time-deleted` class check. -/
structure PendingEntry where
  hasContainer : Bool
  orderNumber : Option String
  code : Option String
  cost : Option String
  isDeleted : Bool
deriving DecidableEq, Repr

/-- A `{orderNumber, code, cost}` row returned by the scrape. -/
structure ScrapedShipment where
  orderNumber : String
  code : String
  cost : String
deriving DecidableEq, Repr

/-- Body of the `orderLabels.forEach` accumulation: push the entry when a
container was found, the order number parsed, the entry is not marked
deleted, and no result with the same order number was pushed before. -/
def scrapeStep (results : List ScrapedShipment) (e : PendingEntry) :
    List ScrapedShipment :=
  if e.hasContainer then
    match e.orderNumber with
    | some num =>
      if !e.isDeleted then
        match results.find? (fun r => r.orderNumber == num) with
        | some _ => results
        | none => results ++ [⟨num, e.code.getD "N/A", e.cost.getD "0.00"⟩]
      else results
    | none => results
  else results

/-- The `forEach` loop over the scraped candidates. -/
def scrapeResults : List PendingEntry → List ScrapedShipment →
    List ScrapedShipment
  | [], acc => acc
  | e :: rest, acc => scrapeResults rest (scrapeStep acc e)

/-- The full `page.evaluate` of `registerMassiveShipment`:
`results.length > 0 ? [results[results.length - 1]] : []`. -/
def scrapePending (entries : List PendingEntry) : List ScrapedShipment :=
  match (scrapeResults entries []).getLast? with
  | some r => [r]
  | none => []

/-- The data a candidate contributes when it is a non-deleted matching
entry. -/
def matchingData (e : PendingEntry) : Option ScrapedShipment :=
  if e.hasContainer && !e.isDeleted then
    e.orderNumber.map (fun num => ⟨num, e.code.getD "N/A", e.cost.getD "0.00"⟩)
  else none

/-- Modelled from the spec: "Only the most recently scraped matching
entry is returned per run" — the last non-deleted matching entry in
scrape order. -/
def lastMatchingEntry (entries : List PendingEntry) :
    Option ScrapedShipment :=
  (entries.filterMap matchingData).getLast?

/-- Default of `registerMassiveShipment(apiKey, filePath, securityCode = '8002')`:
a JS default parameter replaces only `undefined`, so an explicitly passed
empty string is used as-is. -/
def massiveDefaultCode (sc : Option String) : String :=
  match sc with
  | none => "8002"
  | some s => s

/-- What the site did during the massive flow: reached the final scrape
with these candidates, or some step threw. -/
inductive MassiveOutcome where
  | completed (entries : List PendingEntry)
  | stepError (msg : String)

/-- Environment of a `registerMassiveShipment` call. -/
structure MassiveEnv where
  restore : RestoreEnv
  outcome : MassiveOutcome
  stateBlob : String

/-- The `{success, message, shipments}` result of the massive flow
(`elapsed` omitted). -/
structure MassiveResult where
  success : Bool
  message : String
  shipments : List ScrapedShipment
deriving DecidableEq, Repr

/-- Embedding of `registerMassiveShipment`: resolve the session, upload the file,
enter the (defaulted) shared code into the four key-code inputs —
`code[i]` on a string shorter than 4 is `undefined` and the `fill`
throws — submit, then scrape the pending view.  Step errors are
rethrown. -/
def registerMassiveShipment (s : TMState) (k : String) (filePath : String)
    (securityCode : Option String) (env : MassiveEnv) :
    Except String (TMState × MassiveResult × List Action) :=
  match getOrRestoreInstance s k env.restore with
  | (_, none, _) => .error "Instance not found"
  | (s1, some _, tr0) =>
    match env.outcome with
    | .stepError msg => .error msg
    | .completed entries =>
      let code := massiveDefaultCode securityCode
      if code.toList.length < 4 then
        .error "fill: value: expected string, got undefined"
      else
        let shipments := scrapePending entries
        let (s2, trSave) := saveStorageState s1 k env.stateBlob
        .ok (s2, ⟨true, "Massive shipment registered successfully", shipments⟩,
             tr0 ++ [Action.navigate "https://pro.shalom.pe/#/envios/list",
                     Action.uploadFile filePath]
               ++ (code.toList.take 4).map Action.clickDigit
               ++ [Action.navigate "https://pro.shalom.pe/#/solicitud/pendientes"]
               ++ trSave)

/-! ## Route-level validation and dispatch -/

/-- Whether the `POST /shipments` handler runs its securityCode
validation: `if (shipmentData.securityCode) { ... }` — skipped on any
falsy value (absent field or empty string). -/
def shipmentsValidatorRuns (sc : Option String) : Bool :=
  match sc with
  | none => false
  | some s => s != ""

/-- Whether the `POST /register` handler runs its securityCode
validation: `if (securityCode) { ... }`. -/
def massiveValidatorRuns (sc : Option String) : Bool :=
  match sc with
  | none => false
  | some s => s != ""

/-- Outcome of the `POST /shipments` handler's pre-workflow phase: either
a 400 validation error (no driver interaction), or the workflow is
invoked with the request. -/
inductive RouteOutcome where
  | validationError (status : Nat) (error : String)
  | workflowInvoked (data : ShipmentRequest)
deriving DecidableEq, Repr

/-- Whether a route outcome is a 400 validation reply (so the workflow,
and hence the driver, is never reached). -/
def isValidationError : RouteOutcome → Bool
  | .validationError _ _ => true
  | .workflowInvoked _ => false

/-- The `POST /shipments` handler up to the `registerShipment` call: the
securityCode checks run only when the code is truthy, and each rejection
replies 400 before any driver interaction. -/
def shipmentsRoute (data : ShipmentRequest) : RouteOutcome :=
  if shipmentsValidatorRuns data.securityCode then
    match validateShipmentsCode (data.securityCode.getD "") with
    | .notFourDigits =>
      .validationError 400 "securityCode must be exactly 4 digits"
    | .consecutive =>
      .validationError 400
        "securityCode cannot have consecutive digits (e.g., 1234, 4321)"
    | .ok => .workflowInvoked data
  else .workflowInvoked data

/-- The `POST /register` handler up to the `registerMassiveShipment`
call. -/
def massiveRoute (_filePath : String) (securityCode : Option String) :
    RouteOutcome :=
  if massiveValidatorRuns securityCode then
    if massiveCodeRejected (securityCode.getD "") then
      .validationError 400
        "Security code cannot be a sequence of 4 consecutive digits (e.g. 1234, 4321)"
    else .workflowInvoked
      ⟨"", "", "", "", none, none, false, false, none, securityCode⟩
  else .workflowInvoked ⟨"", "", "", "", none, none, false, false, none, securityCode⟩

/-! ## Queue worker admission (BullMQ `setupWorker`) -/

/-- The worker options of `setupWorker`: `concurrency: 5`,
`limiter: { max: 10, duration: 1000 }`. -/
structure WorkerOptions where
  concurrency : Nat
  limiterMax : Nat
  limiterDurationMs : Nat
deriving DecidableEq, Repr

def shipmentsWorkerOptions : WorkerOptions := ⟨5, 10, 1000⟩

/-- Whether the worker starts a further `registerShipment` job while
`activeKeys` (the apiKeys of the currently running jobs) are in flight
and `startedInWindow` jobs already started in the current rate window.
The admission consults only the two counters; neither the worker options
nor `registerShipment` itself take any per-session lock, so the key the
job carries is not examined. -/
def canStartJob (activeKeys : List String) (startedInWindow : Nat)
    (_jobKey : String) : Bool :=
  decide (activeKeys.length < shipmentsWorkerOptions.concurrency)
    && decide (startedInWindow < shipmentsWorkerOptions.limiterMax)

/-! ## Trace observations -/

/-- Field names carried by a database write action. -/
def writeFields : Action → List String
  | .dbCreate fs => fs
  | .dbWrite fs => fs
  | _ => []

/-- A trace is clean when every database write touches only columns of
the `instances` table and never a `password` field. -/
def writesClean (tr : List Action) : Prop :=
  ∀ a ∈ tr, ∀ f ∈ writeFields a, f ∈ instancesColumns ∧ f ≠ "password"

/-- The digit-keypad clicks of a trace, in order. -/
def clickedDigits (tr : List Action) : List Char :=
  tr.filterMap (fun a => match a with
    | .clickDigit c => some c
    | _ => none)

/-- Predicate for form interaction: filling a credential field,
submitting the form, or pressing a keypad digit. -/
def isFormInteraction : Action → Bool
  | .fillCredentials => true
  | .submitForm => true
  | .clickDigit _ => true
  | _ => false

/-- The field list the claim about the durable schema enumerates: id,
credential key, username, cached auth state blob, and the two
timestamps. -/
def claimedRecordFields : List String :=
  ["id", "apiKey", "username", "storageState", "createdAt", "lastUsedAt"]

/-! ## Helper lemmas -/

theorem isSubstring_iff (needle hay : List Char) :
    isSubstring needle hay = true ↔ needle <:+: hay := by
  induction hay with
  | nil =>
    simp [isSubstring, List.isPrefixOf_iff_prefix, List.infix_nil,
      List.prefix_nil]
  | cons c t ih =>
    rw [isSubstring]
    simp only [Bool.or_eq_true, List.isPrefixOf_iff_prefix, ih,
      List.infix_cons_iff]

theorem jsIncludes_iff (hay needle : String) :
    jsIncludes hay needle = true ↔ needle.toList <:+: hay.toList := by
  unfold jsIncludes
  exact isSubstring_iff _ _

theorem isConsecutive_eq_isRunOfFour (code : String) :
    isConsecutive code = isRunOfFour code := by
  unfold isConsecutive isRunOfFour
  generalize code.toList = l
  rcases l with _ | ⟨a, _ | ⟨b, _ | ⟨c, _ | ⟨d, _ | ⟨e, t⟩⟩⟩⟩⟩ <;> try rfl
  rw [Bool.eq_iff_iff]
  simp only [Bool.or_eq_true, Bool.and_eq_true, beq_iff_eq]
  omega

theorem validateShipmentsCode_iff_spec (code : String) :
    validateShipmentsCode code = CodeCheck.ok ↔ specCodeAccepted code = true := by
  unfold validateShipmentsCode specCodeAccepted isFourDigits
  rw [isConsecutive_eq_isRunOfFour]
  generalize (code.toList.length == 4 && code.toList.all Char.isDigit) = b
  generalize isRunOfFour code = m
  cases b <;> cases m <;> simp

theorem massiveCodeRejected_iff (pin : String) :
    massiveCodeRejected pin = true ↔
      pin.toList.length = 4 ∧
        (pin.toList <:+: ascendingDigits.toList
          ∨ pin.toList <:+: descendingDigits.toList) := by
  unfold massiveCodeRejected
  simp [jsIncludes_iff]

/-! ## C1 — security-code validation -/

/-- C1 counterexample: the claim says both endpoints reject every
non-4-digit string, but the massive `/register` validator does not reject
`"12345"` (the spec validator does), and the route proceeds to invoke the
workflow with it. -/
theorem c1_counterexample :
    specCodeAccepted "12345" = false ∧
    massiveCodeRejected "12345" = false ∧
    massiveRoute "batch.xlsx" (some "12345") =
      RouteOutcome.workflowInvoked
        ⟨"", "", "", "", none, none, false, false, none, some "12345"⟩ := by
  exact ⟨by decide, by decide, by decide⟩

/-- C1 (amended): the single-shipment `/shipments` validator accepts a
supplied code iff it is exactly 4 digits and not a run of 4 consecutive
ascending or descending digits, rejecting `"1234"`, `"4321"`, `"0123"`,
`"9876"` and every non-4-digit string while accepting `"5858"`, `"1357"`,
`"0000"`; a code rejected by either endpoint's validator is answered with
a 400 validation error before the workflow (and hence the driver) is
invoked.  The massive `/register` validator, however, rejects exactly the
length-4 contiguous substrings of `"0123456789"` / `"9876543210"` — it
rejects the four listed runs but accepts every other string, including
every non-4-digit string. -/
theorem c1_security_code_validation :
    (∀ code, validateShipmentsCode code = CodeCheck.ok ↔
      specCodeAccepted code = true) ∧
    (validateShipmentsCode "1234" = CodeCheck.consecutive ∧
      validateShipmentsCode "4321" = CodeCheck.consecutive ∧
      validateShipmentsCode "0123" = CodeCheck.consecutive ∧
      validateShipmentsCode "9876" = CodeCheck.consecutive ∧
      validateShipmentsCode "5858" = CodeCheck.ok ∧
      validateShipmentsCode "1357" = CodeCheck.ok ∧
      validateShipmentsCode "0000" = CodeCheck.ok) ∧
    (∀ code, isFourDigits code = false →
      validateShipmentsCode code = CodeCheck.notFourDigits) ∧
    (∀ pin, massiveCodeRejected pin = true ↔
      pin.toList.length = 4 ∧
        (pin.toList <:+: ascendingDigits.toList
          ∨ pin.toList <:+: descendingDigits.toList)) ∧
    (massiveCodeRejected "1234" = true ∧ massiveCodeRejected "4321" = true ∧
      massiveCodeRejected "0123" = true ∧ massiveCodeRejected "9876" = true ∧
      massiveCodeRejected "5858" = false ∧ massiveCodeRejected "1357" = false ∧
      massiveCodeRejected "0000" = false) ∧
    (∀ data code, data.securityCode = some code → code ≠ "" →
      validateShipmentsCode code ≠ CodeCheck.ok →
      isValidationError (shipmentsRoute data) = true) ∧
    (∀ fp code, code ≠ "" → massiveCodeRejected code = true →
      isValidationError (massiveRoute fp (some code)) = true) := by
  refine ⟨validateShipmentsCode_iff_spec, by decide, ?_, massiveCodeRejected_iff,
    by decide, ?_, ?_⟩
  · intro code h
    simp [validateShipmentsCode, h]
  · intro data code hsc hne hbad
    unfold shipmentsRoute shipmentsValidatorRuns
    rw [hsc]
    simp only [hsc, Option.getD_some, bne_iff_ne, ne_eq, hne,
      not_false_eq_true, if_true]
    rcases h : validateShipmentsCode code with _ | _ | _
    · exact absurd h hbad
    · rfl
    · rfl
  · intro fp code hne hrej
    unfold massiveRoute massiveValidatorRuns
    simp only [bne_iff_ne, ne_eq, hne, not_false_eq_true, if_true,
      Option.getD_some, hrej]
    rfl

/-- C1 witness: the theorem's conditional parts applied at `"12"` (not
four digits), at a request carrying `"1234"` on the single route, and at
`"1234"` on the massive route. -/
theorem c1_security_code_validation_witness :
    validateShipmentsCode "12" = CodeCheck.notFourDigits ∧
    isValidationError (shipmentsRoute
      ⟨"sobre", "Lima", "Cusco", "45678901", none, none, false, false,
        none, some "1234"⟩) = true ∧
    isValidationError (massiveRoute "batch.xlsx" (some "1234")) = true :=
  ⟨c1_security_code_validation.2.2.1 "12" (by decide),
   c1_security_code_validation.2.2.2.2.2.1
     ⟨"sobre", "Lima", "Cusco", "45678901", none, none, false, false,
       none, some "1234"⟩ "1234" rfl (by decide) (by decide),
   c1_security_code_validation.2.2.2.2.2.2 "batch.xlsx" "1234" (by decide)
     (by decide)⟩

/-! ## C2 — concurrency admission -/

/-- C2 counterexample: the claim says a second `registerShipment`
invocation for a credential key does not begin while the first is still
active; but with one job for `"k1"` active (and the rate window open) the
worker admits another `"k1"` job. -/
theorem c2_counterexample :
    canStartJob ["k1"] 0 "k1" = true ∧ "k1" ∈ ["k1"] :=
  ⟨by decide, by decide⟩

/-- C2 (amended): no per-credential mutual exclusion exists.  The worker
admits a job exactly when fewer than 5 jobs are active and fewer than 10
started in the current 1-second window, irrespective of the job's
credential key — in particular a job whose key is already active is
admitted — and `registerShipment` itself starts unconditionally on any
live session (it takes no per-session lock).  Across distinct keys the
same count-only ceiling is the sole bound. -/
theorem c2_no_per_session_exclusion :
    (∀ active n key key2, canStartJob active n key = canStartJob active n key2) ∧
    (∀ active n key, canStartJob active n key = true ↔
      active.length < 5 ∧ n < 10) ∧
    (∀ (active : List String) n key, key ∈ active → active.length < 5 →
      n < 10 → canStartJob active n key = true) ∧
    (∀ s k data env inst, getInstance s k = some inst →
      ∃ out, registerShipment s k data env = Except.ok out) := by
  refine ⟨fun _ _ _ _ => rfl, ?_, ?_, ?_⟩
  · intro active n key
    simp [canStartJob, shipmentsWorkerOptions]
  · intro active n key _ h5 h10
    simp [canStartJob, shipmentsWorkerOptions, h5, h10]
  · intro s k data env inst hLive
    unfold registerShipment getOrRestoreInstance
    rw [hLive]
    cases env.outcome <;> exact ⟨_, rfl⟩

/-- C2 witness: the theorem applied with one `"k1"` job already active
and with a one-instance state. -/
theorem c2_no_per_session_exclusion_witness :
    canStartJob ["k1"] 1 "k1" = true ∧
    (∃ out, registerShipment
      ⟨[("k1", ⟨"id1", some "u", "https://pro.shalom.pe/#/home"⟩)], []⟩ "k1"
      ⟨"sobre", "Lima", "Cusco", "45678901", none, none, false, false, none,
        none⟩
      ⟨⟨"https://pro.shalom.pe/#/home", fun _ => .noIndicator, "blob"⟩,
        .completed "Registrado" none, "blob"⟩ = Except.ok out) :=
  ⟨c2_no_per_session_exclusion.2.2.1 ["k1"] 1 "k1" (by decide) (by decide)
      (by decide),
   c2_no_per_session_exclusion.2.2.2
     ⟨[("k1", ⟨"id1", some "u", "https://pro.shalom.pe/#/home"⟩)], []⟩ "k1"
     ⟨"sobre", "Lima", "Cusco", "45678901", none, none, false, false, none,
       none⟩
     ⟨⟨"https://pro.shalom.pe/#/home", fun _ => .noIndicator, "blob"⟩,
       .completed "Registrado" none, "blob"⟩
     ⟨"id1", some "u", "https://pro.shalom.pe/#/home"⟩ rfl⟩

/-! ## C3 — unknown credential -/

theorem getOrRestore_none (s : TMState) (k : String) (env : RestoreEnv)
    (hLive : getInstance s k = none) (hDb : dbFind s k = none) :
    getOrRestoreInstance s k env = (s, none, []) := by
  unfold getOrRestoreInstance
  rw [hLive, hDb]

/-- C3: for a credential key that was never created (no live entry and no
durable record), `getOrRestoreInstance` returns `null` and leaves the
state untouched, `login`, `logout`, `registerShipment` and
`registerMassiveShipment` throw `Instance not found`, `getStatus` returns
`null`, and `closeInstance` returns `false` without changing anything. -/
theorem c3_unknown_credential (s : TMState) (k : String)
    (hLive : getInstance s k = none) (hDb : dbFind s k = none)
    (renv : RestoreEnv) (lenv : LoginEnv) (senv : ShipEnv)
    (menv : MassiveEnv) (u p fp : String) (retries : Nat)
    (data : ShipmentRequest) (sc : Option String) :
    getOrRestoreInstance s k renv = (s, none, []) ∧
    login s k u p retries lenv = Except.error "Instance not found" ∧
    logout s k = Except.error "Instance not found" ∧
    getStatus s k = none ∧
    registerShipment s k data senv = Except.error "Instance not found" ∧
    registerMassiveShipment s k fp sc menv =
      Except.error "Instance not found" ∧
    closeInstance s k = (s, false, []) := by
  refine ⟨getOrRestore_none s k renv hLive hDb, ?_, ?_, ?_, ?_, ?_, ?_⟩
  · unfold login
    rw [getOrRestore_none s k lenv.restore hLive hDb]
  · unfold logout
    rw [hLive]
  · unfold getStatus
    rw [hLive]
  · unfold registerShipment
    rw [getOrRestore_none s k senv.restore hLive hDb]
  · unfold registerMassiveShipment
    rw [getOrRestore_none s k menv.restore hLive hDb]
  · unfold closeInstance
    rw [hLive]
    simp only []
    rw [hDb]

/-- C3 witness: the theorem applied to the empty state and the key
`"ghost"`. -/
theorem c3_unknown_credential_witness :
    login ⟨[], []⟩ "ghost" "u" "p" 3
      ⟨⟨"https://pro.shalom.pe/login", fun _ => .noIndicator, "b"⟩,
        fun _ => .noIndicator, "b"⟩ = Except.error "Instance not found" ∧
    getStatus ⟨[], []⟩ "ghost" = none ∧
    closeInstance ⟨[], []⟩ "ghost" = (⟨[], []⟩, false, []) :=
  have h := c3_unknown_credential ⟨[], []⟩ "ghost" rfl rfl
    ⟨"https://pro.shalom.pe/login", fun _ => .noIndicator, "b"⟩
    ⟨⟨"https://pro.shalom.pe/login", fun _ => .noIndicator, "b"⟩,
      fun _ => .noIndicator, "b"⟩
    ⟨⟨"https://pro.shalom.pe/login", fun _ => .noIndicator, "b"⟩,
      .stepError "boom", "b"⟩
    ⟨⟨"https://pro.shalom.pe/login", fun _ => .noIndicator, "b"⟩,
      .stepError "boom", "b"⟩
    "u" "p" "f.xlsx" 3
    ⟨"sobre", "Lima", "Cusco", "45678901", none, none, false, false, none,
      none⟩ none
  ⟨h.2.1, h.2.2.2.1, h.2.2.2.2.2.2⟩

/-! ## C4 — idempotent login -/

theorem getInstance_setInstance_self (s : TMState) (k : String)
    (inst : LiveInstance) : getInstance (setInstance s k inst) k = some inst := by
  simp [getInstance, setInstance]

theorem getInstance_dbUpdate (s : TMState) (k k2 : String)
    (f : DbRecord → DbRecord) :
    getInstance (dbUpdate s k f) k2 = getInstance s k2 := rfl

theorem saveStorageState_live (s : TMState) (k : String)
    (inst : LiveInstance) (h : getInstance s k = some inst) (blob : String) :
    saveStorageState s k blob =
      (dbUpdate s k (fun r => { r with storageState := some blob }),
       [Action.saveState, Action.dbWrite ["storageState", "lastUsedAt"]]) := by
  unfold saveStorageState
  rw [h]

/-- C4: calling `login` on a session whose page is no longer on the login
view returns `Already logged in` without any form interaction; the bound
`username` is preserved when already set and bound to the supplied
identifier when it was `null`; the storage state is extracted and
persisted. -/
theorem c4_login_idempotent (s : TMState) (k : String) (inst : LiveInstance)
    (hLive : getInstance s k = some inst)
    (hAuth : jsIncludes inst.pageUrl "login" = false)
    (u p : String) (retries : Nat) (env : LoginEnv) :
    ∃ s' tr,
      login s k u p retries env =
        Except.ok (s', ⟨true, some "Already logged in", some inst.pageUrl⟩, tr) ∧
      (∀ a ∈ tr, isFormInteraction a = false) ∧
      (inst.username ≠ none → getInstance s' k = some inst) ∧
      (inst.username = none →
        getInstance s' k = some { inst with username := some u }) ∧
      Action.saveState ∈ tr ∧
      Action.dbWrite ["storageState", "lastUsedAt"] ∈ tr := by
  unfold login
  rw [show getOrRestoreInstance s k env.restore = (s, some inst, []) from by
    unfold getOrRestoreInstance; rw [hLive]]
  simp only [hAuth, Bool.not_false, if_true]
  rcases hU : inst.username with _ | u0
  · have hLive2 : getInstance
        (dbUpdate (setInstance s k { inst with username := some u }) k
          (fun r => { r with username := some u })) k =
        some { inst with username := some u } := by
      rw [getInstance_dbUpdate, getInstance_setInstance_self]
    simp only [hU]
    rw [saveStorageState_live _ _ _ hLive2]
    refine ⟨_, _, rfl, by simp [isFormInteraction], fun h => absurd rfl h,
      fun _ => ?_, by simp, by simp⟩
    rw [getInstance_dbUpdate]
    exact hLive2
  · simp only [hU]
    rw [saveStorageState_live _ _ _ hLive]
    refine ⟨_, _, rfl, by simp [isFormInteraction], fun _ => ?_,
      fun h => Option.noConfusion h, by simp, by simp⟩
    rw [getInstance_dbUpdate]
    exact hLive

/-- C4 witness: the theorem applied to a one-session state already on the
home view with a bound username. -/
theorem c4_login_idempotent_witness :
    ∃ s' tr,
      login ⟨[("k1", ⟨"id1", some "ana", "https://pro.shalom.pe/#/home"⟩)],
          [⟨"id1", "k1", some "ana", none⟩]⟩ "k1" "bob" "pw" 3
        ⟨⟨"https://pro.shalom.pe/#/home", fun _ => .noIndicator, "b"⟩,
          fun _ => .noIndicator, "b"⟩ =
        Except.ok (s', ⟨true, some "Already logged in",
          some "https://pro.shalom.pe/#/home"⟩, tr) ∧
      (∀ a ∈ tr, isFormInteraction a = false) ∧
      getInstance s' "k1" =
        some ⟨"id1", some "ana", "https://pro.shalom.pe/#/home"⟩ := by
  obtain ⟨s', tr, h1, h2, h3, -, -, -⟩ := c4_login_idempotent
    ⟨[("k1", ⟨"id1", some "ana", "https://pro.shalom.pe/#/home"⟩)],
      [⟨"id1", "k1", some "ana", none⟩]⟩ "k1"
    ⟨"id1", some "ana", "https://pro.shalom.pe/#/home"⟩ rfl (by decide)
    "bob" "pw" 3
    ⟨⟨"https://pro.shalom.pe/#/home", fun _ => .noIndicator, "b"⟩,
      fun _ => .noIndicator, "b"⟩
  exact ⟨s', tr, h1, h2, h3 (by decide)⟩

/-! ## C5 — invalid-credentials classification -/

theorem count_fill_attemptTrace (attempt : Nat) :
    (attemptTrace attempt).count Action.fillCredentials = 1 := by
  unfold attemptTrace
  split <;> decide

theorem loginLoopGo_all_invalid (env : Nat → AttemptOutcome)
    (hEnv : ∀ n, env n = .invalidIndicator) (retries : Nat) :
    ∀ fuel attempt, 1 ≤ fuel → attempt + fuel = retries + 1 →
      ∃ tr, loginLoopGo env retries fuel attempt =
        (retries, ⟨false, some "Invalid credentials", none⟩, tr) ∧
        tr.count Action.fillCredentials = fuel := by
  intro fuel
  induction fuel with
  | zero => intro attempt h1 _; omega
  | succ m ih =>
    intro attempt _ hsum
    rw [loginLoopGo, hEnv attempt]
    simp only []
    by_cases hlt : attempt < retries
    · have hm : 1 ≤ m := by omega
      obtain ⟨tr, hgo, hcount⟩ := ih (attempt + 1) hm (by omega)
      rw [if_pos hlt, hgo]
      refine ⟨_, rfl, ?_⟩
      rw [List.count_append, count_fill_attemptTrace, hcount]
      omega
    · have heq : attempt = retries := by omega
      have hm0 : m = 0 := by omega
      subst heq
      rw [if_neg hlt]
      exact ⟨_, rfl, by rw [count_fill_attemptTrace, hm0]⟩

theorem loginLoopGo_all_error (env : Nat → AttemptOutcome) (msg : String)
    (hEnv : ∀ n, env n = .driverError msg) (retries : Nat) :
    ∀ fuel attempt, 1 ≤ fuel → attempt + fuel = retries + 1 →
      ∃ tr, loginLoopGo env retries fuel attempt =
        (retries, ⟨false, some msg, none⟩, tr) ∧
        tr.count Action.fillCredentials = fuel := by
  intro fuel
  induction fuel with
  | zero => intro attempt h1 _; omega
  | succ m ih =>
    intro attempt _ hsum
    rw [loginLoopGo, hEnv attempt]
    simp only []
    by_cases heq : attempt = retries
    · have hm0 : m = 0 := by omega
      subst heq
      rw [if_pos (beq_self_eq_true attempt)]
      exact ⟨_, rfl, by rw [count_fill_attemptTrace, hm0]⟩
    · have hm : 1 ≤ m := by omega
      obtain ⟨tr, hgo, hcount⟩ := ih (attempt + 1) hm (by omega)
      rw [if_neg (by simpa using heq), hgo]
      refine ⟨_, rfl, ?_⟩
      rw [List.count_append, count_fill_attemptTrace, hcount]
      omega

/-- C5: when every attempt ends at the explicit invalid-credentials
indicator, the login state machine makes exactly `retries` attempts (one
credential fill each) and returns `{success:false}` with the message
`Invalid credentials`; when every attempt ends in a driver error, the
result carries the driver error's message instead, so the two failures
are distinguishable whenever that message differs; and a `login` call on
a live session sitting on the login view surfaces the
invalid-credentials result unchanged. -/
theorem c5_invalid_credentials_classification (retries : Nat)
    (hret : 1 ≤ retries) (envInv envErr : Nat → AttemptOutcome)
    (msg : String) (hInv : ∀ n, envInv n = .invalidIndicator)
    (hErr : ∀ n, envErr n = .driverError msg)
    (hMsg : msg ≠ "Invalid credentials") :
    (attemptLogin envInv retries).1 = retries ∧
    (attemptLogin envInv retries).2.1 =
      ⟨false, some "Invalid credentials", none⟩ ∧
    (attemptLogin envInv retries).2.2.count Action.fillCredentials =
      retries ∧
    (attemptLogin envErr retries).1 = retries ∧
    (attemptLogin envErr retries).2.1 = ⟨false, some msg, none⟩ ∧
    (attemptLogin envInv retries).2.1 ≠ (attemptLogin envErr retries).2.1 ∧
    (∀ s k inst, getInstance s k = some inst →
      jsIncludes inst.pageUrl "login" = true →
      ∀ u p lenv, lenv.attempts = envInv →
        ∃ tr, login s k u p retries lenv =
          Except.ok (s, ⟨false, some "Invalid credentials", none⟩, tr)) := by
  obtain ⟨trI, hI, hIc⟩ :=
    loginLoopGo_all_invalid envInv hInv retries retries 1 hret (by omega)
  obtain ⟨trE, hE, _⟩ :=
    loginLoopGo_all_error envErr msg hErr retries retries 1 hret (by omega)
  have hAI : attemptLogin envInv retries =
      (retries, ⟨false, some "Invalid credentials", none⟩, trI) := hI
  have hAE : attemptLogin envErr retries =
      (retries, ⟨false, some msg, none⟩, trE) := hE
  refine ⟨by rw [hAI], by rw [hAI], by rw [hAI]; exact hIc, by rw [hAE],
    by rw [hAE], ?_, ?_⟩
  · rw [hAI, hAE]
    intro h
    injection h with _ h2
    injection h2 with h3
    exact hMsg (h3.symm)
  · intro s k inst hLive hUrl u p lenv hAtt
    unfold login
    rw [show getOrRestoreInstance s k lenv.restore = (s, some inst, []) from
      by unfold getOrRestoreInstance; rw [hLive]]
    simp only [hUrl, Bool.not_true, if_false]
    rw [hAtt, hAI]
    exact ⟨_, rfl⟩

/-- C5 witness: the theorem applied with `retries = 2`, the constant
invalid-indicator environment, and a timeout environment. -/
theorem c5_invalid_credentials_witness :
    (attemptLogin (fun _ => .invalidIndicator) 2).1 = 2 ∧
    (attemptLogin (fun _ => .invalidIndicator) 2).2.1 =
      ⟨false, some "Invalid credentials", none⟩ ∧
    (attemptLogin (fun _ => .driverError "Timeout 8000ms exceeded") 2).2.1 =
      ⟨false, some "Timeout 8000ms exceeded", none⟩ :=
  have h := c5_invalid_credentials_classification 2 (by decide)
    (fun _ => .invalidIndicator) (fun _ => .driverError "Timeout 8000ms exceeded")
    "Timeout 8000ms exceeded" (fun _ => rfl) (fun _ => rfl) (by decide)
  ⟨h.1, h.2.1, h.2.2.2.2.1⟩

/-! ## C6 — closing a session -/

theorem find?_beq_filter_bne {α : Type} (f : α → String) (l : List α)
    (k : String) :
    (l.filter (fun x => f x != k)).find? (fun x => f x == k) = none := by
  rw [List.find?_eq_none]
  intro x hx
  have h := List.of_mem_filter hx
  simpa using h

/-- C6 counterexample: on a live session with a durable record, the
claim says `close` first flushes the current auth state to the durable
record; but the trace is exactly a context close followed by the record
delete — no storage-state save and no database write occurs. -/
theorem c6_counterexample :
    closeInstance
        ⟨[("k", ⟨"id", some "u", "https://pro.shalom.pe/#/home"⟩)],
          [⟨"id", "k", some "u", some "blob"⟩]⟩ "k" =
      (⟨[], []⟩, true, [Action.closeContext, Action.dbDelete]) ∧
    Action.saveState ∉ [Action.closeContext, Action.dbDelete] ∧
    Action.dbWrite ["storageState", "lastUsedAt"] ∉
      [Action.closeContext, Action.dbDelete] := by
  exact ⟨by decide, by decide, by decide⟩

/-- C6 (amended): for a live session with a durable record,
`closeInstance` releases the automation context, removes the session from
the registry, deletes the durable record and returns `true` — but it does
not flush the auth state first (its trace carries no storage-state save
and no database write); for a key with no session, live or durable, it
returns `false` and changes nothing. -/
theorem c6_close_instance (s : TMState) (k : String) :
    (∀ inst r, getInstance s k = some inst → dbFind s k = some r →
      closeInstance s k =
        ({ instances := s.instances.filter (fun p => p.1 != k),
           db := s.db.filter (fun rec => rec.apiKey != k) }, true,
         [Action.closeContext, Action.dbDelete]) ∧
      getInstance ⟨s.instances.filter (fun p => p.1 != k),
        s.db.filter (fun rec => rec.apiKey != k)⟩ k = none ∧
      dbFind ⟨s.instances.filter (fun p => p.1 != k),
        s.db.filter (fun rec => rec.apiKey != k)⟩ k = none ∧
      Action.saveState ∉ [Action.closeContext, Action.dbDelete] ∧
      (∀ a ∈ [Action.closeContext, Action.dbDelete], writeFields a = [])) ∧
    (getInstance s k = none → dbFind s k = none →
      closeInstance s k = (s, false, [])) := by
  constructor
  · intro inst r hL hD
    refine ⟨?_, ?_, ?_, by decide, by decide⟩
    · unfold closeInstance
      rw [hL]
      simp only []
      unfold dbFind at hD ⊢
      rw [hD]
      rfl
    · unfold getInstance
      rw [show (⟨s.instances.filter (fun p => p.1 != k),
          s.db.filter (fun rec => rec.apiKey != k)⟩ : TMState).instances =
          s.instances.filter (fun p => p.1 != k) from rfl]
      rw [find?_beq_filter_bne (fun p => p.1) s.instances k]
      rfl
    · unfold dbFind
      exact find?_beq_filter_bne (fun rec => rec.apiKey) s.db k
  · intro hL hD
    unfold closeInstance
    rw [hL]
    simp only []
    rw [hD]

/-- C6 witness: the theorem's two parts applied at a one-session state
and at the empty state. -/
theorem c6_close_instance_witness :
    closeInstance
        ⟨[("k", ⟨"id", some "u", "https://pro.shalom.pe/#/home"⟩)],
          [⟨"id", "k", some "u", some "blob"⟩]⟩ "k" =
      (⟨[], []⟩, true, [Action.closeContext, Action.dbDelete]) ∧
    closeInstance ⟨[], []⟩ "nope" = (⟨[], []⟩, false, []) :=
  ⟨((c6_close_instance
      ⟨[("k", ⟨"id", some "u", "https://pro.shalom.pe/#/home"⟩)],
        [⟨"id", "k", some "u", some "blob"⟩]⟩ "k").1
      ⟨"id", some "u", "https://pro.shalom.pe/#/home"⟩
      ⟨"id", "k", some "u", some "blob"⟩ rfl rfl).1,
   (c6_close_instance ⟨[], []⟩ "nope").2 rfl rfl⟩

/-! ## C7 — no password in the durable store -/

theorem writesClean_nil : writesClean [] := by
  intro a ha
  cases ha

theorem writesClean_append {t1 t2 : List Action} (h1 : writesClean t1)
    (h2 : writesClean t2) : writesClean (t1 ++ t2) := by
  intro a ha
  rcases List.mem_append.mp ha with h | h
  · exact h1 a h
  · exact h2 a h

theorem writesClean_of_no_fields {tr : List Action}
    (h : ∀ a ∈ tr, writeFields a = []) : writesClean tr := by
  intro a ha f hf
  rw [h a ha] at hf
  cases hf

theorem no_fields_attemptTrace (attempt : Nat) :
    ∀ a ∈ attemptTrace attempt, writeFields a = [] := by
  unfold attemptTrace
  split <;> decide

theorem no_fields_loginLoopGo (env : Nat → AttemptOutcome) (retries : Nat) :
    ∀ fuel attempt a, a ∈ (loginLoopGo env retries fuel attempt).2.2 →
      writeFields a = [] := by
  intro fuel
  induction fuel with
  | zero =>
    intro attempt a ha
    rw [loginLoopGo] at ha
    cases ha
  | succ m ih =>
    intro attempt a ha
    rw [loginLoopGo] at ha
    rcases henv : env attempt with url | _ | _ | msg <;> rw [henv] at ha <;>
      simp only [] at ha
    · exact no_fields_attemptTrace attempt a ha
    · split at ha
      · rcases hgo : loginLoopGo env retries m (attempt + 1) with ⟨n, r, tr⟩
        rw [hgo] at ha
        simp only [] at ha
        rcases List.mem_append.mp ha with h | h
        · exact no_fields_attemptTrace attempt a h
        · exact ih (attempt + 1) a (by rw [hgo]; exact h)
      · exact no_fields_attemptTrace attempt a ha
    · rcases hgo : loginLoopGo env retries m (attempt + 1) with ⟨n, r, tr⟩
      rw [hgo] at ha
      simp only [] at ha
      rcases List.mem_append.mp ha with h | h
      · exact no_fields_attemptTrace attempt a h
      · exact ih (attempt + 1) a (by rw [hgo]; exact h)
    · split at ha
      · exact no_fields_attemptTrace attempt a ha
      · rcases hgo : loginLoopGo env retries m (attempt + 1) with ⟨n, r, tr⟩
        rw [hgo] at ha
        simp only [] at ha
        rcases List.mem_append.mp ha with h | h
        · exact no_fields_attemptTrace attempt a h
        · exact ih (attempt + 1) a (by rw [hgo]; exact h)

theorem writesClean_attemptLogin (env : Nat → AttemptOutcome)
    (retries : Nat) : writesClean (attemptLogin env retries).2.2 :=
  writesClean_of_no_fields
    (no_fields_loginLoopGo env retries retries 1)

theorem writesClean_literal (tr : List Action)
    (h : tr.all (fun a => (writeFields a).all
      (fun f => decide (f ∈ instancesColumns) && f != "password")) = true) :
    writesClean tr := by
  intro a ha f hf
  have h1 := List.all_eq_true.mp h a ha
  have h2 := List.all_eq_true.mp h1 f hf
  simp only [Bool.and_eq_true, decide_eq_true_eq, bne_iff_ne, ne_eq] at h2
  exact h2

theorem writesClean_saveStorageState (s : TMState) (k blob : String) :
    writesClean (saveStorageState s k blob).2 := by
  unfold saveStorageState
  cases h : getInstance s k
  · exact writesClean_nil
  · exact writesClean_literal
      [Action.saveState, Action.dbWrite ["storageState", "lastUsedAt"]]
      (by decide)

theorem writesClean_restoreInstance (s : TMState) (r : DbRecord)
    (env : RestoreEnv) : writesClean (restoreInstance s r env).2 := by
  unfold restoreInstance
  simp only [dbRecordPassword, Option.isSome_none, Bool.and_false,
    Bool.false_eq_true, if_false]
  generalize hsv : (if (!jsIncludes env.urlAfterGoto "login") = true then
    saveStorageState
      (setInstance s r.apiKey
        ⟨r.id,
          if (!jsIncludes env.urlAfterGoto "login") = true then r.username
          else none, env.urlAfterGoto⟩) r.apiKey env.stateBlob
    else
      (setInstance s r.apiKey
        ⟨r.id,
          if (!jsIncludes env.urlAfterGoto "login") = true then r.username
          else none, env.urlAfterGoto⟩, ([] : List Action))) = res
  rcases res with ⟨s2, trSave⟩
  have hSave : writesClean trSave := by
    split at hsv
    case isTrue hcond =>
      have hW := writesClean_saveStorageState
        (setInstance s r.apiKey
          ⟨r.id,
            if (!jsIncludes env.urlAfterGoto "login") = true then r.username
            else none, env.urlAfterGoto⟩) r.apiKey env.stateBlob
      rw [if_pos hcond] at hW
      rw [hsv] at hW
      exact hW
    case isFalse hcond =>
      cases hsv
      exact writesClean_nil
  simp only []
  exact writesClean_append (writesClean_append (writesClean_append
    (writesClean_literal [Action.navigate "https://pro.shalom.pe"]
      (by decide)) writesClean_nil)
    (writesClean_literal [Action.dbWrite ["lastUsedAt"]] (by decide))) hSave

theorem writesClean_getOrRestore (s : TMState) (k : String)
    (env : RestoreEnv) : writesClean (getOrRestoreInstance s k env).2.2 := by
  unfold getOrRestoreInstance
  cases hI : getInstance s k with
  | some inst => exact writesClean_nil
  | none =>
    cases hD : dbFind s k with
    | none => exact writesClean_nil
    | some r =>
      simp only []
      have hW := writesClean_restoreInstance s r env
      rcases hres : restoreInstance s r env with ⟨s1, tr⟩
      rw [hres] at hW
      exact hW

theorem no_fields_clickDigits (l : List Char) :
    ∀ a ∈ l.map Action.clickDigit, writeFields a = [] := by
  intro a ha
  rcases List.mem_map.mp ha with ⟨c, _, rfl⟩
  rfl

theorem writesClean_login (s : TMState) (k u p : String) (retries : Nat)
    (env : LoginEnv) (out : TMState × LoginResult × List Action)
    (h : login s k u p retries env = Except.ok out) :
    writesClean out.2.2 := by
  unfold login at h
  have hGR := writesClean_getOrRestore s k env.restore
  rcases hgo : getOrRestoreInstance s k env.restore with ⟨s1, oinst, tr0⟩
  rw [hgo] at h hGR
  cases oinst with
  | none => cases h
  | some inst =>
    simp only [] at h
    split at h
    · rcases hU : inst.username with _ | u0 <;> rw [hU] at h <;>
        simp only [] at h
      · rcases hsv : saveStorageState
            (dbUpdate (setInstance s1 k { inst with username := some u }) k
              (fun r => { r with username := some u })) k env.stateBlob
          with ⟨s3, tr2⟩
        have hW := writesClean_saveStorageState
          (dbUpdate (setInstance s1 k { inst with username := some u }) k
            (fun r => { r with username := some u })) k env.stateBlob
        rw [hsv] at h hW
        cases h
        exact writesClean_append (writesClean_append hGR
          (writesClean_literal [Action.dbWrite ["username"]] (by decide))) hW
      · rcases hsv : saveStorageState s1 k env.stateBlob with ⟨s3, tr2⟩
        have hW := writesClean_saveStorageState s1 k env.stateBlob
        rw [hsv] at h hW
        cases h
        exact writesClean_append (writesClean_append hGR writesClean_nil) hW
    · have hAL := writesClean_attemptLogin env.attempts retries
      rcases hal : attemptLogin env.attempts retries with ⟨n, res, trL⟩
      rw [hal] at h hAL
      simp only [] at h
      split at h
      · rcases hsv : saveStorageState
            (dbUpdate (setInstance s1 k
              { inst with username := some u,
                          pageUrl := res.url.getD inst.pageUrl }) k
              (fun r => { r with username := some u })) k env.stateBlob
          with ⟨s4, tr2⟩
        have hW := writesClean_saveStorageState
          (dbUpdate (setInstance s1 k
            { inst with username := some u,
                        pageUrl := res.url.getD inst.pageUrl }) k
            (fun r => { r with username := some u })) k env.stateBlob
        rw [hsv] at h hW
        cases h
        exact writesClean_append (writesClean_append (writesClean_append hGR
          hAL) (writesClean_literal [Action.dbWrite ["username"]]
            (by decide))) hW
      · cases h
        exact writesClean_append hGR hAL

theorem writesClean_logout (s : TMState) (k : String)
    (out : TMState × LoginResult × List Action)
    (h : logout s k = Except.ok out) : writesClean out.2.2 := by
  unfold logout at h
  cases hI : getInstance s k with
  | none => rw [hI] at h; cases h
  | some inst =>
    rw [hI] at h
    simp only [] at h
    cases h
    exact writesClean_literal
      [Action.clearCookies, Action.dbWrite ["username", "storageState"],
       Action.navigate "https://pro.shalom.pe/login"] (by decide)

theorem writesClean_closeInstance (s : TMState) (k : String) :
    writesClean (closeInstance s k).2.2 := by
  unfold closeInstance
  cases getInstance s k <;> simp only [] <;>
    [cases dbFind s k; cases dbFind ⟨s.instances.filter (fun p => p.1 != k),
      s.db⟩ k] <;> simp only []
  · exact writesClean_nil
  · exact writesClean_literal [Action.dbDelete] (by decide)
  · exact writesClean_literal [Action.closeContext] (by decide)
  · exact writesClean_literal [Action.closeContext, Action.dbDelete]
      (by decide)

theorem writesClean_createInstance (s : TMState) (apiKey id : String) :
    writesClean (createInstance s apiKey id).2.2 :=
  writesClean_literal
    [Action.dbCreate ["id", "apiKey"],
     Action.navigate "https://pro.shalom.pe/login"] (by decide)

theorem writesClean_registerShipment (s : TMState) (k : String)
    (data : ShipmentRequest) (env : ShipEnv)
    (out : TMState × RegisterOutcome × List Action)
    (h : registerShipment s k data env = Except.ok out) :
    writesClean out.2.2 := by
  unfold registerShipment at h
  have hGR := writesClean_getOrRestore s k env.restore
  rcases hgo : getOrRestoreInstance s k env.restore with ⟨s1, oinst, tr0⟩
  rw [hgo] at h hGR
  cases oinst with
  | none => cases h
  | some inst =>
    simp only [] at h
    rcases ho : env.outcome with ⟨content, swalTitle⟩ | msg <;>
      rw [ho] at h <;> simp only [] at h
    · rcases hsv : saveStorageState s1 k env.stateBlob with ⟨s2, tr2⟩
      have hW := writesClean_saveStorageState s1 k env.stateBlob
      rw [hsv] at h hW
      cases h
      exact writesClean_append (writesClean_append (writesClean_append hGR
        (writesClean_literal
          [Action.navigate "https://pro.shalom.pe/#/home",
           Action.navigate "https://pro.shalom.pe/#/envios"] (by decide)))
        (writesClean_of_no_fields (no_fields_clickDigits _))) hW
    · cases h
      exact writesClean_append hGR
        (writesClean_literal
          [Action.navigate "https://pro.shalom.pe/#/home",
           Action.navigate "https://pro.shalom.pe/#/envios"] (by decide))

theorem writesClean_registerMassive (s : TMState) (k fp : String)
    (sc : Option String) (env : MassiveEnv)
    (out : TMState × MassiveResult × List Action)
    (h : registerMassiveShipment s k fp sc env = Except.ok out) :
    writesClean out.2.2 := by
  unfold registerMassiveShipment at h
  have hGR := writesClean_getOrRestore s k env.restore
  rcases hgo : getOrRestoreInstance s k env.restore with ⟨s1, oinst, tr0⟩
  rw [hgo] at h hGR
  cases oinst with
  | none => cases h
  | some inst =>
    simp only [] at h
    rcases ho : env.outcome with entries | msg <;> rw [ho] at h <;>
      simp only [] at h
    · split at h
      · cases h
      · rcases hsv : saveStorageState s1 k env.stateBlob with ⟨s2, tr2⟩
        have hW := writesClean_saveStorageState s1 k env.stateBlob
        rw [hsv] at h hW
        cases h
        refine writesClean_append (writesClean_append (writesClean_append
          (writesClean_append hGR
            (writesClean_of_no_fields (fun a ha => ?_)))
          (writesClean_of_no_fields (no_fields_clickDigits _)))
          (writesClean_literal
            [Action.navigate "https://pro.shalom.pe/#/solicitud/pendientes"]
            (by decide))) hW
        rcases List.mem_cons.mp ha with rfl | ha2
        · rfl
        · rcases List.mem_cons.mp ha2 with rfl | ha3
          · rfl
          · cases ha3
    · cases h

theorem writesClean_shutdown (s : TMState) (blob : String) :
    writesClean (shutdown s blob).2 := by
  unfold shutdown
  suffices h : ∀ (l : List (String × LiveInstance))
      (acc : TMState × List Action), writesClean acc.2 →
      writesClean (l.foldl
        (fun (acc : TMState × List Action) p =>
          let (s1, tr) := saveStorageState acc.1 p.1 blob
          (s1, acc.2 ++ tr ++ [Action.closeContext])) acc).2 by
    exact h s.instances (s, []) writesClean_nil
  intro l
  induction l with
  | nil => intro acc hacc; exact hacc
  | cons p t ih =>
    intro acc hacc
    rw [List.foldl_cons]
    apply ih
    rcases hsv : saveStorageState acc.1 p.1 blob with ⟨s1, tr⟩
    have hW := writesClean_saveStorageState acc.1 p.1 blob
    rw [hsv] at hW
    exact writesClean_append (writesClean_append hacc hW)
      (writesClean_literal [Action.closeContext] (by decide))

/-- C7 counterexample: the claim enumerates the durable record's fields
as id, credential key, username, cached auth state blob, and timestamps
only; but the `instances` table of the migration also carries the
`isActive` boolean, which is none of those. -/
theorem c7_counterexample :
    "isActive" ∈ instancesColumns ∧ "isActive" ∉ claimedRecordFields := by
  exact ⟨by decide, by decide⟩

/-- C7 (amended): the durable `instances` table consists of id, apiKey,
username, storageState, the `isActive` flag, and the two timestamps — in
particular it has no password column — and every database write issued by
any operation of the manager (state save, restore, get-or-restore,
create, login, logout, close, single and massive registration, shutdown)
touches only columns of that table and never a `password` field. -/
theorem c7_no_password_persisted :
    "password" ∉ instancesColumns ∧
    (∀ f ∈ claimedRecordFields, f ∈ instancesColumns) ∧
    (∀ s k blob, writesClean (saveStorageState s k blob).2) ∧
    (∀ s r env, writesClean (restoreInstance s r env).2) ∧
    (∀ s k env, writesClean (getOrRestoreInstance s k env).2.2) ∧
    (∀ s apiKey id, writesClean (createInstance s apiKey id).2.2) ∧
    (∀ s k u p retries env out, login s k u p retries env = Except.ok out →
      writesClean out.2.2) ∧
    (∀ s k out, logout s k = Except.ok out → writesClean out.2.2) ∧
    (∀ s k, writesClean (closeInstance s k).2.2) ∧
    (∀ s k data env out, registerShipment s k data env = Except.ok out →
      writesClean out.2.2) ∧
    (∀ s k fp sc env out,
      registerMassiveShipment s k fp sc env = Except.ok out →
      writesClean out.2.2) ∧
    (∀ s blob, writesClean (shutdown s blob).2) :=
  ⟨by decide, by decide, writesClean_saveStorageState,
   writesClean_restoreInstance, writesClean_getOrRestore,
   writesClean_createInstance,
   fun s k u p retries env out h => writesClean_login s k u p retries env out h,
   fun s k out h => writesClean_logout s k out h,
   writesClean_closeInstance,
   fun s k data env out h => writesClean_registerShipment s k data env out h,
   fun s k fp sc env out h => writesClean_registerMassive s k fp sc env out h,
   writesClean_shutdown⟩

/-- C7 witness: a concrete login on a live unauthenticated session whose
attempt succeeds; its whole trace is clean. -/
theorem c7_no_password_persisted_witness :
    ∃ out, login
      ⟨[("k1", ⟨"id1", none, "https://pro.shalom.pe/login"⟩)],
        [⟨"id1", "k1", none, none⟩]⟩ "k1" "ana" "pw" 3
      ⟨⟨"https://pro.shalom.pe/login", fun _ => .noIndicator, "b"⟩,
        fun _ => .navigatedAway "https://pro.shalom.pe/#/home", "b"⟩ =
      Except.ok out ∧ writesClean out.2.2 :=
  ⟨_, rfl, c7_no_password_persisted.2.2.2.2.2.2.1
    ⟨[("k1", ⟨"id1", none, "https://pro.shalom.pe/login"⟩)],
      [⟨"id1", "k1", none, none⟩]⟩ "k1" "ana" "pw" 3
    ⟨⟨"https://pro.shalom.pe/login", fun _ => .noIndicator, "b"⟩,
      fun _ => .navigatedAway "https://pro.shalom.pe/#/home", "b"⟩ _ rfl⟩

/-! ## C8 — result extraction -/

theorem takeRun_sound (p : Char → Bool) (l : List Char) :
    ∀ c ∈ (takeRun p l).1, p c = true := by
  induction l with
  | nil => intro c hc; cases hc
  | cons a t ih =>
    intro c hc
    unfold takeRun at hc
    split at hc
    case isTrue hp =>
      rcases htr : takeRun p t with ⟨r, rest⟩
      rw [htr] at hc
      simp only [] at hc
      rcases List.mem_cons.mp hc with rfl | hr
      · exact hp
      · exact ih c (by rw [htr]; exact hr)
    case isFalse hp => cases hc

theorem regMatchAt_sound (l : List Char) (a b : String)
    (h : regMatchAt l = some (a, b)) :
    (∃ c ds, a.toList = c :: ds ∧ c.isUpper = true ∧ ds ≠ [] ∧
      ∀ d ∈ ds, d.isDigit = true) ∧
    b.toList ≠ [] ∧ (∀ d ∈ b.toList, d.isDigit = true) := by
  unfold regMatchAt at h
  rcases l with _ | ⟨c, rest⟩
  · cases h
  · simp only [] at h
    split at h
    case isFalse => cases h
    case isTrue hUp =>
      rcases h1 : takeRun Char.isDigit rest with ⟨ds, rest2⟩
      rw [h1] at h
      rcases ds with _ | ⟨d0, dt⟩
      · simp only [] at h
        cases h
      · simp only [] at h
        rcases h2 : takeRun isJsSpace rest2 with ⟨sp, rest3⟩
        rw [h2] at h
        simp only [] at h
        split at h
        case _ rest4 =>
          rcases h3 : takeRun isJsSpace rest4 with ⟨sp2, rest5⟩
          rw [h3] at h
          simp only [] at h
          rcases h4 : takeRun Char.isDigit rest5 with ⟨ds2, rest6⟩
          rw [h4] at h
          rcases ds2 with _ | ⟨e0, et⟩
          · simp only [] at h
            cases h
          · simp only [Option.some.injEq, Prod.mk.injEq] at h
            rcases h with ⟨ha, hb⟩
            have hds : ∀ d ∈ d0 :: dt, d.isDigit = true := by
              intro d hd
              exact takeRun_sound Char.isDigit rest d (by rw [h1]; exact hd)
            have hds2 : ∀ d ∈ e0 :: et, d.isDigit = true := by
              intro d hd
              exact takeRun_sound Char.isDigit rest5 d (by rw [h4]; exact hd)
            refine ⟨⟨c, d0 :: dt, ?_, hUp, by simp, hds⟩, ?_, ?_⟩
            · rw [← ha]
              rfl
            · rw [← hb]
              exact List.cons_ne_nil e0 et
            · rw [← hb]
              exact hds2
        case _ => cases h

theorem findRegMatch_sound (l : List Char) (a b : String)
    (h : findRegMatch l = some (a, b)) :
    (∃ c ds, a.toList = c :: ds ∧ c.isUpper = true ∧ ds ≠ [] ∧
      ∀ d ∈ ds, d.isDigit = true) ∧
    b.toList ≠ [] ∧ (∀ d ∈ b.toList, d.isDigit = true) := by
  induction l with
  | nil => cases h
  | cons c rest ih =>
    rw [findRegMatch] at h
    rcases hm : regMatchAt (c :: rest) with _ | ⟨a2, b2⟩
    · rw [hm] at h
      exact ih h
    · rw [hm] at h
      simp only [Option.some.injEq, Prod.mk.injEq] at h
      rcases h with ⟨rfl, rfl⟩
      exact regMatchAt_sound (c :: rest) _ _ hm

theorem priceMatchAt_sound (l : List Char) (cap : String)
    (h : priceMatchAt l = some cap) :
    cap.toList ≠ [] ∧ ∀ d ∈ cap.toList, (d.isDigit || d == '.') = true := by
  unfold priceMatchAt at h
  split at h
  case _ rest =>
    rcases h1 : takeRun isJsSpace rest with ⟨sp, rest2⟩
    rw [h1] at h
    simp only [] at h
    rcases h2 : takeRun (fun c => c.isDigit || c == '.') rest2 with ⟨ds, rest3⟩
    rw [h2] at h
    rcases ds with _ | ⟨d0, dt⟩
    · cases h
    · simp only [Option.some.injEq] at h
      have hds : ∀ d ∈ d0 :: dt, (d.isDigit || d == '.') = true := by
        intro d hd
        exact takeRun_sound (fun c => c.isDigit || c == '.') rest2 d
          (by rw [h2]; exact hd)
      rw [← h]
      exact ⟨by simp, hds⟩
  case _ => cases h

theorem findPriceMatch_sound (l : List Char) (cap : String)
    (h : findPriceMatch l = some cap) :
    cap.toList ≠ [] ∧ ∀ d ∈ cap.toList, (d.isDigit || d == '.') = true := by
  induction l with
  | nil => cases h
  | cons c rest ih =>
    rw [findPriceMatch] at h
    rcases hm : priceMatchAt (c :: rest) with _ | cap2
    · rw [hm] at h
      exact ih h
    · rw [hm] at h
      simp only [Option.some.injEq] at h
      rw [← h]
      exact priceMatchAt_sound (c :: rest) cap2 hm

/-- C8 counterexample: the claim says a result is successful only when
the `Registrado` marker is present *together with* a parsed registration
number; but on content holding only the bare marker the code reports
success with a `null` registration number. -/
theorem c8_counterexample :
    (getRegistrationResult "Registrado" none).success = true ∧
    (getRegistrationResult "Registrado" none).registrationNumber = none := by
  exact ⟨by decide, by decide⟩

/-- C8 (amended): the extracted result is successful iff the `Registrado`
marker occurs in the content — the registration number is not required;
on success the registration number is the leftmost
`<letter><digits> - <digits>` match reformatted (or `null` when none) and
the price is the leftmost capture after the `S/` prefix (or `null`); on
failure the message is the error dialog's title, or `Unknown error` when
that extraction failed. -/
theorem c8_result_extraction (content : String) (swal : Option String) :
    ((getRegistrationResult content swal).success = true ↔
      "Registrado".toList <:+: content.toList) ∧
    (¬ "Registrado".toList <:+: content.toList →
      getRegistrationResult content swal =
        ⟨false, none, none, swal.getD "Unknown error"⟩) ∧
    (∀ t, swal = some t → ¬ "Registrado".toList <:+: content.toList →
      (getRegistrationResult content swal).message = t) ∧
    (swal = none → ¬ "Registrado".toList <:+: content.toList →
      (getRegistrationResult content swal).message = "Unknown error") ∧
    ("Registrado".toList <:+: content.toList →
      (getRegistrationResult content swal).registrationNumber =
        (findRegMatch content.toList).map (fun q => q.1 ++ " - " ++ q.2) ∧
      (getRegistrationResult content swal).price =
        findPriceMatch content.toList ∧
      (getRegistrationResult content swal).message =
        "Shipment registered successfully") ∧
    (∀ a b, findRegMatch content.toList = some (a, b) →
      (∃ c ds, a.toList = c :: ds ∧ c.isUpper = true ∧ ds ≠ [] ∧
        ∀ d ∈ ds, d.isDigit = true) ∧
      b.toList ≠ [] ∧ (∀ d ∈ b.toList, d.isDigit = true)) ∧
    (∀ cap, findPriceMatch content.toList = some cap →
      cap.toList ≠ [] ∧ ∀ d ∈ cap.toList, (d.isDigit || d == '.') = true) := by
  have hkey : jsIncludes content "Registrado" = true ↔
      "Registrado".toList <:+: content.toList := jsIncludes_iff _ _
  unfold getRegistrationResult
  by_cases hm : "Registrado".toList <:+: content.toList
  · rw [if_pos (hkey.mpr hm)]
    exact ⟨by simpa using hm, fun hc => absurd hm hc,
      fun t _ hc => absurd hm hc, fun _ hc => absurd hm hc,
      fun _ => ⟨rfl, rfl, rfl⟩,
      fun a b h => findRegMatch_sound _ a b h,
      fun cap h => findPriceMatch_sound _ cap h⟩
  · rw [if_neg (fun hj => hm (hkey.mp hj))]
    refine ⟨by simpa using hm, fun _ => rfl, fun t ht _ => by rw [ht]; rfl,
      fun ht _ => by rw [ht]; rfl, fun hc => absurd hc hm,
      fun a b h => findRegMatch_sound _ a b h,
      fun cap h => findPriceMatch_sound _ cap h⟩

/-- C8 witness: the theorem applied to a registered page content and to
an error page content. -/
theorem c8_result_extraction_witness :
    (getRegistrationResult "Envío Registrado E123 - 456 costo S/ 25.50" none).registrationNumber =
      some "E123 - 456" ∧
    (getRegistrationResult "Envío Registrado E123 - 456 costo S/ 25.50" none).price =
      some "25.50" ∧
    (getRegistrationResult "lo sentimos" (some "DNI no encontrado")).message =
      "DNI no encontrado" :=
  have hin : ("Registrado".toList :
      List Char) <:+: "Envío Registrado E123 - 456 costo S/ 25.50".toList :=
    (isSubstring_iff _ _).mp (by decide)
  have hout : ¬ (("Registrado".toList : List Char) <:+: "lo sentimos".toList) :=
    fun hc => absurd ((isSubstring_iff "Registrado".toList
      "lo sentimos".toList).mpr hc) (by decide)
  have h1 := (c8_result_extraction
    "Envío Registrado E123 - 456 costo S/ 25.50" none).2.2.2.2.1 hin
  have h2 := (c8_result_extraction "lo sentimos"
    (some "DNI no encontrado")).2.2.1 "DNI no encontrado" rfl hout
  ⟨by rw [h1.1]; decide, by rw [h1.2.1]; decide, h2⟩

/-! ## C9 — massive-registration scrape -/

theorem getLast?_eq_none_imp {α : Type} {l : List α}
    (h : l.getLast? = none) : l = [] := by
  cases l with
  | nil => rfl
  | cons a t =>
    rw [List.getLast?_eq_getLast_of_ne_nil (by simp)] at h
    cases h

theorem mem_of_getLast?_eq {α : Type} {l : List α} {a : α}
    (h : l.getLast? = some a) : a ∈ l := by
  have hm : a ∈ l.getLast? := Option.mem_def.mpr h
  rcases List.mem_getLast?_eq_getLast hm with ⟨hne, rfl⟩
  exact List.getLast_mem hne

theorem matchingData_not_deleted {e : PendingEntry} {d : ScrapedShipment}
    (h : matchingData e = some d) : e.isDeleted = false := by
  unfold matchingData at h
  split at h
  case isTrue hc =>
    cases hd : e.isDeleted
    · rfl
    · rw [hd] at hc
      simp at hc
  case isFalse => cases h

theorem scrapeStep_eq (acc : List ScrapedShipment) (e : PendingEntry) :
    scrapeStep acc e =
      match matchingData e with
      | none => acc
      | some d =>
        match acc.find? (fun r => r.orderNumber == d.orderNumber) with
        | some _ => acc
        | none => acc ++ [d] := by
  unfold scrapeStep matchingData
  cases hc : e.hasContainer
  · rfl
  · cases hn : e.orderNumber with
    | none => cases hd : e.isDeleted <;> rfl
    | some num => cases hd : e.isDeleted <;> rfl

theorem scrapeStep_of_none {acc : List ScrapedShipment} {e : PendingEntry}
    (h : matchingData e = none) : scrapeStep acc e = acc := by
  rw [scrapeStep_eq, h]

theorem scrapeStep_of_some {acc : List ScrapedShipment} {e : PendingEntry}
    {d : ScrapedShipment} (h : matchingData e = some d) :
    scrapeStep acc e =
      match acc.find? (fun r => r.orderNumber == d.orderNumber) with
      | some _ => acc
      | none => acc ++ [d] := by
  rw [scrapeStep_eq, h]

theorem scrapeResults_mem (entries : List PendingEntry) :
    ∀ acc r, r ∈ scrapeResults entries acc →
      r ∈ acc ∨ ∃ e ∈ entries, matchingData e = some r := by
  induction entries with
  | nil =>
    intro acc r h
    exact Or.inl h
  | cons e rest ih =>
    intro acc r h
    rw [scrapeResults] at h
    rcases ih (scrapeStep acc e) r h with hin | ⟨e2, he2, hm⟩
    · rcases hmd : matchingData e with _ | d
      · rw [scrapeStep_of_none hmd] at hin
        exact Or.inl hin
      · rw [scrapeStep_of_some hmd] at hin
        split at hin
        · exact Or.inl hin
        · rcases List.mem_append.mp hin with h1 | h2
          · exact Or.inl h1
          · rw [List.mem_singleton.mp h2]
            exact Or.inr ⟨e, List.mem_cons_self e rest, hmd⟩
    · exact Or.inr ⟨e2, List.mem_cons_of_mem e he2, hm⟩

theorem scrapeResults_of_nodup (entries : List PendingEntry) :
    ∀ acc, (((acc ++ entries.filterMap matchingData).map
        (fun r => r.orderNumber)).Nodup) →
      scrapeResults entries acc = acc ++ entries.filterMap matchingData := by
  induction entries with
  | nil =>
    intro acc _
    simp [scrapeResults]
  | cons e rest ih =>
    intro acc hnd
    rw [scrapeResults]
    rcases hmd : matchingData e with _ | d
    · rw [scrapeStep_of_none hmd]
      rw [List.filterMap_cons_none hmd] at hnd ⊢
      exact ih acc hnd
    · rw [scrapeStep_of_some hmd]
      rw [List.filterMap_cons_some hmd] at hnd ⊢
      have hnd2 := hnd
      rw [List.map_append, List.map_cons, List.nodup_append] at hnd2
      have hnotin : d.orderNumber ∉ acc.map (fun r => r.orderNumber) := by
        intro hmem
        exact (List.disjoint_left.mp hnd2.2.2 hmem)
          (List.mem_cons_self _ _)
      have hfind : acc.find? (fun r => r.orderNumber == d.orderNumber) =
          none := by
        rw [List.find?_eq_none]
        intro x hx hbeq
        apply hnotin
        have hbe : x.orderNumber = d.orderNumber := by simpa using hbeq
        rw [← hbe]
        exact List.mem_map_of_mem _ hx
      rw [hfind]
      simp only []
      have hres := ih (acc ++ [d]) (by rw [← List.append_cons]; exact hnd)
      rw [hres, ← List.append_cons]

/-- C9 counterexample: the claim promises the returned element is the
most recently scraped matching entry; but when a later entry repeats an
earlier order number, the first-seen dedup makes the code return the last
*new* order number instead — here the scrape returns the order-`7` row
while the most recently scraped matching entry is the second order-`5`
row. -/
theorem c9_counterexample :
    scrapePending
        [⟨true, some "5", some "A", some "1.00", false⟩,
         ⟨true, some "7", none, none, false⟩,
         ⟨true, some "5", some "B", some "9.00", false⟩] =
      [⟨"7", "N/A", "0.00"⟩] ∧
    lastMatchingEntry
        [⟨true, some "5", some "A", some "1.00", false⟩,
         ⟨true, some "7", none, none, false⟩,
         ⟨true, some "5", some "B", some "9.00", false⟩] =
      some ⟨"5", "B", "9.00"⟩ ∧
    scrapePending
        [⟨true, some "5", some "A", some "1.00", false⟩,
         ⟨true, some "7", none, none, false⟩,
         ⟨true, some "5", some "B", some "9.00", false⟩] ≠
      [(⟨"5", "B", "9.00"⟩ : ScrapedShipment)] := by
  exact ⟨by decide, by decide, by decide⟩

/-- C9 (amended): the scrape returns at most one row; every returned row
stems from a non-deleted matching entry (cancelled/deleted entries are
excluded); when the matching entries carry pairwise-distinct order
numbers — in particular always when nothing matches — the single returned
row is exactly the most recently scraped matching entry (first-seen data
per order number otherwise). -/
theorem c9_pending_scrape (entries : List PendingEntry) :
    (scrapePending entries).length ≤ 1 ∧
    (∀ r ∈ scrapePending entries, ∃ e ∈ entries,
      e.isDeleted = false ∧ matchingData e = some r) ∧
    (((entries.filterMap matchingData).map
        (fun r => r.orderNumber)).Nodup →
      scrapePending entries = (lastMatchingEntry entries).toList) ∧
    (lastMatchingEntry entries = none → scrapePending entries = []) := by
  refine ⟨?_, ?_, ?_, ?_⟩
  · unfold scrapePending
    cases (scrapeResults entries []).getLast? <;> simp
  · intro r hr
    have hmem : r ∈ scrapeResults entries [] := by
      unfold scrapePending at hr
      rcases hl : (scrapeResults entries []).getLast? with _ | r0
      · rw [hl] at hr
        cases hr
      · rw [hl] at hr
        rw [List.mem_singleton.mp hr]
        exact mem_of_getLast?_eq hl
    rcases scrapeResults_mem entries [] r hmem with hin | ⟨e, he, hm⟩
    · cases hin
    · exact ⟨e, he, matchingData_not_deleted hm, hm⟩
  · intro hnd
    unfold scrapePending lastMatchingEntry
    rw [scrapeResults_of_nodup entries [] (by simpa using hnd)]
    rw [List.nil_append]
    cases (entries.filterMap matchingData).getLast? <;> rfl
  · intro hnone
    unfold lastMatchingEntry at hnone
    have hempty := getLast?_eq_none_imp hnone
    unfold scrapePending
    rw [scrapeResults_of_nodup entries [] (by simp [hempty])]
    rw [List.nil_append, hempty]
    rfl

/-- C9 witness: the theorem applied to a scrape holding one deleted and
two distinct live entries; the last live entry is returned. -/
theorem c9_pending_scrape_witness :
    scrapePending
        [⟨true, some "5", some "A", some "1.00", false⟩,
         ⟨true, some "9", none, none, true⟩,
         ⟨true, some "7", none, none, false⟩] =
      (lastMatchingEntry
        [⟨true, some "5", some "A", some "1.00", false⟩,
         ⟨true, some "9", none, none, true⟩,
         ⟨true, some "7", none, none, false⟩]).toList ∧
    (∀ r ∈ scrapePending
        [⟨true, some "5", some "A", some "1.00", false⟩,
         ⟨true, some "9", none, none, true⟩,
         ⟨true, some "7", none, none, false⟩],
      ∃ e ∈ [(⟨true, some "5", some "A", some "1.00", false⟩ : PendingEntry),
         ⟨true, some "9", none, none, true⟩,
         ⟨true, some "7", none, none, false⟩],
        e.isDeleted = false ∧ matchingData e = some r) :=
  ⟨(c9_pending_scrape
      [⟨true, some "5", some "A", some "1.00", false⟩,
       ⟨true, some "9", none, none, true⟩,
       ⟨true, some "7", none, none, false⟩]).2.2.1 (by decide),
   (c9_pending_scrape
      [⟨true, some "5", some "A", some "1.00", false⟩,
       ⟨true, some "9", none, none, true⟩,
       ⟨true, some "7", none, none, false⟩]).2.1⟩

/-! ## C10 — default security codes -/

theorem clickedDigits_append (t1 t2 : List Action) :
    clickedDigits (t1 ++ t2) = clickedDigits t1 ++ clickedDigits t2 := by
  unfold clickedDigits
  rw [List.filterMap_append]

theorem clickedDigits_map (l : List Char) :
    clickedDigits (l.map Action.clickDigit) = l := by
  unfold clickedDigits
  induction l with
  | nil => rfl
  | cons c t ih =>
    rw [List.map_cons, List.filterMap_cons]
    simp only []
    rw [ih]

/-- C10 counterexample: the claim says an empty securityCode makes the
massive workflow use the default `"8002"`; but a JS default parameter
replaces only `undefined`, so an explicit empty string is passed through
and the four digit fills then crash on `code[0] === undefined`. -/
theorem c10_counterexample :
    massiveDefaultCode (some "") = "" ∧
    massiveDefaultCode (some "") ≠ "8002" ∧
    registerMassiveShipment
        ⟨[("k1", ⟨"id1", some "u", "https://pro.shalom.pe/#/home"⟩)], []⟩
        "k1" "batch.xlsx" (some "")
        ⟨⟨"https://pro.shalom.pe/#/home", fun _ => .noIndicator, "b"⟩,
          .completed [], "b"⟩ =
      Except.error "fill: value: expected string, got undefined" := by
  exact ⟨rfl, by decide, rfl⟩

/-- C10 (amended): the single workflow uses `"5858"` whenever the
securityCode is absent *or* empty, and both endpoint validators are
skipped for an absent or empty code, so these defaults bypass validation
entirely; the massive workflow's `"8002"` default, however, applies only
when the argument is absent (`undefined`) — an explicitly empty string is
passed through and the digit entry fails instead. -/
theorem c10_default_codes :
    (∀ sc, sc = none ∨ sc = some "" →
      singleWorkflowCode sc = "5858" ∧
      shipmentsValidatorRuns sc = false ∧
      massiveValidatorRuns sc = false) ∧
    massiveDefaultCode none = "8002" ∧
    (∀ s, massiveDefaultCode (some s) = s) ∧
    (∀ data, shipmentsValidatorRuns data.securityCode = false →
      shipmentsRoute data = RouteOutcome.workflowInvoked data) ∧
    (∀ s k data env inst content swal,
      getInstance s k = some inst →
      env.outcome = WorkflowOutcome.completed content swal →
      data.securityCode = none ∨ data.securityCode = some "" →
      ∃ s2 res tr, registerShipment s k data env = Except.ok (s2, res, tr) ∧
        clickedDigits tr = "5858".toList) ∧
    (∀ s k fp env inst entries,
      getInstance s k = some inst →
      env.outcome = MassiveOutcome.completed entries →
      ∃ s2 res tr,
        registerMassiveShipment s k fp none env = Except.ok (s2, res, tr) ∧
        clickedDigits tr = "8002".toList) ∧
    (∀ s k fp env inst entries,
      getInstance s k = some inst →
      env.outcome = MassiveOutcome.completed entries →
      registerMassiveShipment s k fp (some "") env =
        Except.error "fill: value: expected string, got undefined") := by
  refine ⟨?_, rfl, fun _ => rfl, ?_, ?_, ?_, ?_⟩
  · rintro sc (rfl | rfl) <;> exact ⟨rfl, rfl, rfl⟩
  · intro data h
    unfold shipmentsRoute
    rw [h]
    rfl
  · intro s k data env inst content swal hLive henv hsc
    unfold registerShipment
    rw [show getOrRestoreInstance s k env.restore = (s, some inst, []) from
      by unfold getOrRestoreInstance; rw [hLive]]
    rw [henv]
    simp only []
    rw [saveStorageState_live _ _ _ hLive]
    have hcode : singleWorkflowCode data.securityCode = "5858" := by
      rcases hsc with h | h <;> rw [h] <;> rfl
    rw [hcode]
    refine ⟨_, _, _, rfl, ?_⟩
    rw [show ([] : List Action) ++
        [Action.navigate "https://pro.shalom.pe/#/home",
         Action.navigate "https://pro.shalom.pe/#/envios"] ++
        List.map Action.clickDigit "5858".toList ++
        [Action.saveState, Action.dbWrite ["storageState", "lastUsedAt"]] =
      ([] ++ [Action.navigate "https://pro.shalom.pe/#/home",
         Action.navigate "https://pro.shalom.pe/#/envios"]) ++
        List.map Action.clickDigit "5858".toList ++
        [Action.saveState, Action.dbWrite ["storageState", "lastUsedAt"]]
      from rfl]
    rw [clickedDigits_append, clickedDigits_append, clickedDigits_map]
    rfl
  · intro s k fp env inst entries hLive henv
    unfold registerMassiveShipment
    rw [show getOrRestoreInstance s k env.restore = (s, some inst, []) from
      by unfold getOrRestoreInstance; rw [hLive]]
    rw [henv]
    simp only []
    rw [if_neg (by decide)]
    rw [saveStorageState_live _ _ _ hLive]
    refine ⟨_, _, _, rfl, ?_⟩
    rw [clickedDigits_append, clickedDigits_append, clickedDigits_append,
      clickedDigits_append, clickedDigits_map]
    rfl
  · intro s k fp env inst entries hLive henv
    unfold registerMassiveShipment
    rw [show getOrRestoreInstance s k env.restore = (s, some inst, []) from
      by unfold getOrRestoreInstance; rw [hLive]]
    rw [henv]
    rfl

/-- C10 witness: the theorem applied at a live session with an absent
code (single and massive) and with an empty code (massive). -/
theorem c10_default_codes_witness :
    (∃ s2 res tr, registerShipment
        ⟨[("k1", ⟨"id1", some "u", "https://pro.shalom.pe/#/home"⟩)], []⟩
        "k1"
        ⟨"sobre", "Lima", "Cusco", "45678901", none, none, false, false,
          none, none⟩
        ⟨⟨"https://pro.shalom.pe/#/home", fun _ => .noIndicator, "b"⟩,
          .completed "Registrado" none, "b"⟩ = Except.ok (s2, res, tr) ∧
      clickedDigits tr = "5858".toList) ∧
    (∃ s2 res tr, registerMassiveShipment
        ⟨[("k1", ⟨"id1", some "u", "https://pro.shalom.pe/#/home"⟩)], []⟩
        "k1" "batch.xlsx" none
        ⟨⟨"https://pro.shalom.pe/#/home", fun _ => .noIndicator, "b"⟩,
          .completed [], "b"⟩ = Except.ok (s2, res, tr) ∧
      clickedDigits tr = "8002".toList) :=
  ⟨c10_default_codes.2.2.2.2.1
    ⟨[("k1", ⟨"id1", some "u", "https://pro.shalom.pe/#/home"⟩)], []⟩ "k1"
    ⟨"sobre", "Lima", "Cusco", "45678901", none, none, false, false, none,
      none⟩
    ⟨⟨"https://pro.shalom.pe/#/home", fun _ => .noIndicator, "b"⟩,
      .completed "Registrado" none, "b"⟩
    ⟨"id1", some "u", "https://pro.shalom.pe/#/home"⟩ "Registrado" none
    rfl rfl (Or.inl rfl),
   c10_default_codes.2.2.2.2.2.1
    ⟨[("k1", ⟨"id1", some "u", "https://pro.shalom.pe/#/home"⟩)], []⟩ "k1"
    "batch.xlsx"
    ⟨⟨"https://pro.shalom.pe/#/home", fun _ => .noIndicator, "b"⟩,
      .completed [], "b"⟩
    ⟨"id1", some "u", "https://pro.shalom.pe/#/home"⟩ [] rfl rfl⟩

end Shalom
